import Mathlib

/-!
The package `container` of cf-object-storage

A shallow embedding of `src/container/container.go` and a development of the
properties of its six commands (`ShowContainers`, `GetContainerInfo`,
`MakeContainer`, `DeleteContainer`, `UpdateContainer`, `RenameContainer`).

Modelling conventions.

* Go strings are Lean `String`s. The only string analysis in the package is a
  split on the ASCII character `:`, which cuts a UTF-8 string at the same
  place whether it is read as bytes or as characters.
* A Go `map[string]string` is an association list with pairwise distinct keys;
  a `range` loop over a map visits the entries in the order of the list, so a
  statement quantified over all lists covers every iteration order.
* A Go `error` is the text that `%s` prints for it; `nil` is `none`.
* The Swift connection is an environment: each of its methods is a function of
  the remote calls issued so far (the history) and of the arguments. The
  embedding threads a `World` that records every remote call issued, in order,
  and every stage label handed to the console writer.
* A run-time panic (index out of range, failed type assertion) is the outcome
  `Outcome.panic`.
* A slice is a window on a backing array; `append` writes in place when the
  capacity allows, which is observable through every other slice that shares
  the array.
-/

namespace container

/-! ## Go runtime: maps, strings, slices -/

/-- Go `map[string]string` (also `swift.Headers`): distinct keys, list order is
the order in which a `range` loop visits the entries. -/
abbrev StrMap := List (String × String)

/-- Map read `v, found := m[k]`. -/
def mapLookup : StrMap → String → Option String
  | [], _ => none
  | (k', v) :: rest, k => if k' = k then some v else mapLookup rest k

/-- Map write `m[k] = v`: overwrite the entry of `k` when there is one, add an
entry otherwise. -/
def mapInsert : StrMap → String → String → StrMap
  | [], k, v => [(k, v)]
  | (k', v') :: rest, k, v =>
    if k' = k then (k, v) :: rest else (k', v') :: mapInsert rest k v

/-- Go `strings.HasPrefix`, on character lists. -/
def startsWith : List Char → List Char → Bool
  | _, [] => true
  | [], _ :: _ => false
  | c :: s, d :: p => c == d && startsWith s p

/-- Go `strings.Index` followed by the two re-slicings of `genSplit`:
`cut s sep = some (s[:m], s[m+len(sep):])` for the first index `m` at which
`sep` occurs in `s`, and `none` when `sep` does not occur. -/
def cut : List Char → List Char → Option (List Char × List Char)
  | [], sep => if startsWith [] sep then some ([], []) else none
  | c :: s, sep =>
    if startsWith (c :: s) sep then some ([], (c :: s).drop sep.length)
    else (cut s sep).map (fun p => (c :: p.1, p.2))

/-- The loop of Go `strings.genSplit` for a non-empty separator: at most `n`
further cuts, the rest of the string is the last piece. -/
def genSplit : Nat → List Char → List Char → List (List Char)
  | 0, s, _ => [s]
  | n + 1, s, sep =>
    match cut s sep with
    | none => [s]
    | some (a, rest) => a :: genSplit n rest sep

/-- Go `strings.SplitN(s, sep, n)` for `n ≥ 0` and a non-empty `sep`: `nil` for
`n = 0`, otherwise at most `n` pieces, the last one unsplit. -/
def SplitN (s sep : String) (n : Nat) : List String :=
  if n = 0 then [] else (genSplit (n - 1) s.data sep.data).map String.mk

/-- A Go slice of strings: `array` is the backing array from the first element
of the slice up to its capacity, `len` the length of the slice. -/
structure Slice where
  array : List String
  len : Nat
deriving DecidableEq, Repr

/-- The elements visible through the slice. -/
def Slice.toList (s : Slice) : List String := s.array.take s.len

/-- Capacity `cap(s)`. -/
def Slice.cap (s : Slice) : Nat := s.array.length

/-- A slice whose capacity equals its length, as built by a literal. -/
def Slice.ofList (l : List String) : Slice := { array := l, len := l.length }

/-- Re-slicing `s[:k]` (for `k ≤ cap(s)`): same backing array, length `k`. -/
def Slice.upTo (s : Slice) (k : Nat) : Slice := { array := s.array, len := k }

/-- Go `append(s, ys...)`. The first component is the slice returned, the second
the backing array of `s` after the call. When `len(s) + len(ys) ≤ cap(s)` the
new elements are written into the backing array of `s`; otherwise a fresh array
is allocated and the old one is left as it was. -/
def Slice.append (s : Slice) (ys : List String) : Slice × List String :=
  if s.len + ys.length ≤ s.array.length then
    let arr := s.array.take s.len ++ ys ++ s.array.drop (s.len + ys.length)
    ({ array := arr, len := s.len + ys.length }, arr)
  else
    ({ array := s.array.take s.len ++ ys, len := s.len + ys.length }, s.array)

/-! ## The remote store and the console writer -/

/-- Remote calls issued on `swift.Connection`. -/
inductive Call where
  | ContainerNamesAll
  | Container (container : String)
  | ContainerCreate (container : String) (headers : StrMap)
  | ContainerDelete (container : String)
  | ObjectNamesAll (container : String)
  | ObjectDelete (container object : String)
  | ObjectMove (srcContainer srcObject dstContainer dstObject : String)
deriving DecidableEq, Repr

/-- The fields of `swift.Container` that the package reads. -/
structure ContainerInfo where
  Name : String
  Count : Int
  Bytes : Int
deriving DecidableEq, Repr

/-- The methods of `swift.Connection` used by the package. Every method takes
the list of remote calls issued before it; `Except.error e` and `some e` are a
non-nil Go error whose text is `e`. -/
structure Connection where
  ContainerNamesAll : List Call → Except String (List String)
  Container : List Call → String → Except String (ContainerInfo × StrMap)
  ContainerCreate : List Call → String → StrMap → Option String
  ContainerDelete : List Call → String → Option String
  ObjectNamesAll : List Call → String → Except String (List String)
  ObjectDelete : List Call → String → String → Option String
  ObjectMove : List Call → String → String → String → String → Option String

/-- An `auth.Destination`. `swift` is a `*auth.SwiftDestination` with its
connection; `other` is any value on which `dest.(*auth.SwiftDestination)`
panics. -/
inductive Destination where
  | swift (SwiftConnection : Connection)
  | other

/-- The two names of package `writer` that the commands print: the constant
`ClearLine` and the colouring function `Green`. Their definitions are in
another package; they are parameters here. -/
structure WriterPkg where
  ClearLine : String
  Green : String → String

/-- What a run has done so far: the remote calls issued, in order, and the
stage labels passed to `writer.SetCurrentStage`. -/
structure World where
  trace : List Call
  stages : List String
deriving DecidableEq, Repr

/-- The world before a command runs. -/
def World.init : World := { trace := [], stages := [] }

/-- Record one remote call. -/
def World.call (w : World) (c : Call) : World := { w with trace := w.trace ++ [c] }

/-- Effect of `writer.SetCurrentStage(label)`. -/
def World.SetCurrentStage (w : World) (label : String) : World :=
  { w with stages := w.stages ++ [label] }

/-- Result of a command of type `(string, error)`: the two values returned, or
a run-time panic. -/
inductive Outcome where
  | ret (out : String) (err : Option String)
  | panic
deriving DecidableEq, Repr

/-- The underlying error of remote call `c` when it is issued after the calls
`hist`: `some e` when the call fails with error `e`, `none` when it succeeds. -/
def respError (conn : Connection) (hist : List Call) : Call → Option String
  | .ContainerNamesAll =>
    match conn.ContainerNamesAll hist with
    | .error e => some e
    | .ok _ => none
  | .Container c =>
    match conn.Container hist c with
    | .error e => some e
    | .ok _ => none
  | .ContainerCreate c h => conn.ContainerCreate hist c h
  | .ContainerDelete c => conn.ContainerDelete hist c
  | .ObjectNamesAll c =>
    match conn.ObjectNamesAll hist c with
    | .error e => some e
    | .ok _ => none
  | .ObjectDelete c o => conn.ObjectDelete hist c o
  | .ObjectMove c o c2 o2 => conn.ObjectMove hist c o c2 o2

/-! ## The package -/

/-- Package variable `shortHeaders`: shortcuts for header input. -/
def shortHeaders : StrMap :=
  [("-gr", "X-Container-Read:.r:*"), ("-rm-gr", "X-Remove-Container-Read:1")]

/-- Go `fmt` verb `%v` applied to a `[]string`. -/
def fmtStrings (l : List String) : String := "[" ++ " ".intercalate l ++ "]"

/-- Go `fmt` verb `%d` applied to an integer. -/
def fmtInt (i : Int) : String := toString i

/-- Function `ShowContainers`. -/
def ShowContainers (W : WriterPkg) (dest : Destination) (args : List String) (w : World) :
    Outcome × World :=
  let w := w.SetCurrentStage "Displaying containers"
  match args[2]? with
  | none => (.panic, w)
  | some serviceName =>
    match dest with
    | .other => (.panic, w)
    | .swift conn =>
      let w1 := w.call .ContainerNamesAll
      match conn.ContainerNamesAll w.trace with
      | .error err => (.ret "" (some ("Failed to get containers: " ++ err)), w1)
      | .ok containers =>
        (.ret ("\r" ++ W.ClearLine ++ W.Green "OK" ++ "\n\nContainers in OS " ++ serviceName
          ++ ": " ++ fmtStrings containers ++ "\n") none, w1)

/-- The loop of `GetContainerInfo` over the header map. -/
def appendHeaderLines : StrMap → String → String
  | [], retval => retval
  | (k, h) :: rest, retval =>
    appendHeaderLines rest (retval ++ ("\n\tName: " ++ k ++ " Value: " ++ h))

/-- Function `GetContainerInfo`. -/
def GetContainerInfo (W : WriterPkg) (dest : Destination) (args : List String) (w : World) :
    Outcome × World :=
  let w := w.SetCurrentStage "Fetching container info"
  match args[3]? with
  | none => (.panic, w)
  | some container =>
    match dest with
    | .other => (.panic, w)
    | .swift conn =>
      let w1 := w.call (.Container container)
      match conn.Container w.trace container with
      | .error err =>
        (.ret "" (some ("Failed to get container info for container " ++ container ++ ": "
          ++ err)), w1)
      | .ok (containerInfo, headers) =>
        let retval := "\r" ++ W.ClearLine ++ W.Green "OK" ++ "\n\nName: " ++ containerInfo.Name
          ++ "\nnumber of objects: " ++ fmtInt containerInfo.Count ++ "\nSize: "
          ++ fmtInt containerInfo.Bytes ++ " bytes\nHeaders:"
        let retval := appendHeaderLines headers retval
        (.ret (retval ++ "\n") none, w1)

/-- The loop of `MakeContainer` over the header tokens, started with the map
built so far: `none` when a token does not split into two parts (the loop
returns the parse error), the finished map otherwise. -/
def parseHeaders : List String → StrMap → Option StrMap
  | [], headerMap => some headerMap
  | h :: rest, headerMap =>
    let h := match mapLookup shortHeaders h with
      | some hFromMap => hFromMap
      | none => h
    match SplitN h ":" 2 with
    | [k, v] => parseHeaders rest (mapInsert headerMap k v)
    | _ => none

/-- Function `MakeContainer`. -/
def MakeContainer (W : WriterPkg) (dest : Destination) (args : List String) (w : World) :
    Outcome × World :=
  let w := w.SetCurrentStage "Creating container"
  match args[2]? with
  | none => (.panic, w)
  | some serviceName =>
    match args[3]? with
    | none => (.panic, w)
    | some container =>
      let headers := args.drop 4
      match parseHeaders headers [] with
      | none =>
        (.ret "" (some "Unable to parse headers (must use format header-name:header-value)"), w)
      | some headerMap =>
        match dest with
        | .other => (.panic, w)
        | .swift conn =>
          let w1 := w.call (.ContainerCreate container headerMap)
          match conn.ContainerCreate w.trace container headerMap with
          | some err => (.ret "" (some ("Failed to create container: " ++ err)), w1)
          | none =>
            (.ret ("\r" ++ W.ClearLine ++ W.Green "OK" ++ "\n\nCreated container " ++ container
              ++ " in OS " ++ serviceName ++ "\n") none, w1)

/-- The loop of `DeleteContainer` over the enumerated objects: `some msg` when
an object delete fails (the loop returns that error), `none` when every delete
succeeded. -/
def deleteObjects (conn : Connection) (container : String) :
    List String → World → Option String × World
  | [], w => (none, w)
  | rmObject :: rest, w =>
    let w1 := w.call (.ObjectDelete container rmObject)
    match conn.ObjectDelete w.trace container rmObject with
    | some err => (some ("Failed to delete object " ++ rmObject ++ ": " ++ err), w1)
    | none => deleteObjects conn container rest w1

/-- The end of `DeleteContainer`, from the stage label "Deleting container". -/
def deleteContainerItself (W : WriterPkg) (dest : Destination) (serviceName container : String)
    (w : World) : Outcome × World :=
  let w := w.SetCurrentStage "Deleting container"
  match dest with
  | .other => (.panic, w)
  | .swift conn =>
    let w1 := w.call (.ContainerDelete container)
    match conn.ContainerDelete w.trace container with
    | some err => (.ret "" (some ("Failed to delete container: " ++ err)), w1)
    | none =>
      (.ret ("\r" ++ W.ClearLine ++ W.Green "OK" ++ "\n\nDeleted container " ++ container
        ++ " from OS " ++ serviceName ++ "\n") none, w1)

/-- Function `DeleteContainer`. -/
def DeleteContainer (W : WriterPkg) (dest : Destination) (args : List String) (w : World) :
    Outcome × World :=
  match args[2]? with
  | none => (.panic, w)
  | some serviceName =>
    match args[3]? with
    | none => (.panic, w)
    | some container =>
      if args.length = 5 ∧ args[4]? = some "-f" then
        let w := w.SetCurrentStage "Deleting objects in container"
        match dest with
        | .other => (.panic, w)
        | .swift conn =>
          let w1 := w.call (.ObjectNamesAll container)
          match conn.ObjectNamesAll w.trace container with
          | .error err => (.ret "" (some ("Failed to get objects to delete: " ++ err)), w1)
          | .ok objects =>
            match deleteObjects conn container objects w1 with
            | (some msg, w2) => (.ret "" (some msg), w2)
            | (none, w2) => deleteContainerItself W dest serviceName container w2
      else
        deleteContainerItself W dest serviceName container w

/-- Function `UpdateContainer`. -/
def UpdateContainer (W : WriterPkg) (dest : Destination) (args : List String) (w : World) :
    Outcome × World :=
  let w := w.SetCurrentStage "Updating container"
  match args[2]? with
  | none => (.panic, w)
  | some serviceName =>
    match args[3]? with
    | none => (.panic, w)
    | some container =>
      match GetContainerInfo W dest args w with
      | (.panic, w1) => (.panic, w1)
      | (.ret _ (some err), w1) =>
        (.ret "" (some ("Failed to get container " ++ container ++ ": " ++ err)), w1)
      | (.ret _ none, w1) =>
        match MakeContainer W dest args w1 with
        | (.panic, w2) => (.panic, w2)
        | (.ret _ (some err), w2) => (.ret "" (some ("Failed to make container: " ++ err)), w2)
        | (.ret _ none, w2) =>
          (.ret ("\r" ++ W.ClearLine ++ W.Green "OK" ++ "\n\nUpdated container " ++ container
            ++ " in OS " ++ serviceName ++ "\n") none, w2)

/-- The first loop of `RenameContainer`: one token `header + ":" + val` for each
entry of the fetched header map. -/
def headerTokens (headers : StrMap) : List String :=
  headers.map (fun p => p.1 ++ ":" ++ p.2)

/-- The second loop of `RenameContainer`, over the enumerated objects: `some msg`
when an object move fails, `none` when every move succeeded. -/
def moveObjects (conn : Connection) (container newContainer : String) :
    List String → World → Option String × World
  | [], w => (none, w)
  | mvObject :: rest, w =>
    let w1 := w.call (.ObjectMove container mvObject newContainer mvObject)
    match conn.ObjectMove w.trace container mvObject newContainer mvObject with
    | some err => (some ("Failed to move object " ++ mvObject ++ ": " ++ err), w1)
    | none => moveObjects conn container newContainer rest w1

/-- The argument `makeArg` of `RenameContainer`,
`append(args[:3], append([]string{newContainer}, headersArg...)...)`, together
with the backing array of `args` after the call. -/
def makeArg (args : Slice) (newContainer : String) (headersArg : List String) :
    Slice × List String :=
  (args.upTo 3).append (newContainer :: headersArg)

/-- Function `RenameContainer`. `args` is a slice: `makeArg` is appended to
`args[:3]`, and `DeleteContainer` is called on `args[:4]` read from the backing
array as that append left it. -/
def RenameContainer (W : WriterPkg) (dest : Destination) (args : Slice) (w : World) :
    Outcome × World :=
  let w := w.SetCurrentStage "Renaming container"
  match args.toList[3]? with
  | none => (.panic, w)
  | some container =>
    match args.toList[4]? with
    | none => (.panic, w)
    | some newContainer =>
      match dest with
      | .other => (.panic, w)
      | .swift conn =>
        let w1 := w.call (.Container container)
        match conn.Container w.trace container with
        | .error err =>
          (.ret "" (some ("Failed to get container " ++ container ++ ": " ++ err)), w1)
        | .ok (_, headers) =>
          let headersArg := headerTokens headers
          let (mk, arr) := makeArg args newContainer headersArg
          let args : Slice := { array := arr, len := args.len }
          match MakeContainer W dest mk.toList w1 with
          | (.panic, w2) => (.panic, w2)
          | (.ret _ (some err), w2) => (.ret "" (some ("Failed to make container: " ++ err)), w2)
          | (.ret _ none, w2) =>
            let w2 := w2.SetCurrentStage "Renaming container"
            let w3 := w2.call (.ObjectNamesAll container)
            match conn.ObjectNamesAll w2.trace container with
            | .error err => (.ret "" (some ("Failed to get objects to move: " ++ err)), w3)
            | .ok objects =>
              match moveObjects conn container newContainer objects w3 with
              | (some msg, w4) => (.ret "" (some msg), w4)
              | (none, w4) =>
                match DeleteContainer W dest (args.upTo 4).toList w4 with
                | (.panic, w5) => (.panic, w5)
                | (.ret _ (some err), w5) =>
                  (.ret "" (some ("Failed to delete container: " ++ err)), w5)
                | (.ret _ none, w5) =>
                  (.ret ("\r" ++ W.ClearLine ++ W.Green "OK" ++ "\n\nRenamed container "
                    ++ container ++ " to " ++ newContainer ++ "\n") none, w5)

/-! ## Concrete data used in the scenarios -/

/-- A writer package with visible markers. -/
def W0 : WriterPkg := { ClearLine := "<clear>", Green := fun s => "<green>" ++ s }

/-- A store in which every call succeeds; the container fetch returns the single
header `X-Container-Meta-Foo: Bar` and the enumeration the single object `x.txt`. -/
def fooStore : Connection where
  ContainerNamesAll := fun _ => .ok ["old"]
  Container := fun _ c => .ok ({ Name := c, Count := 1, Bytes := 3 }, [("X-Container-Meta-Foo", "Bar")])
  ContainerCreate := fun _ _ _ => none
  ContainerDelete := fun _ _ => none
  ObjectNamesAll := fun _ _ => .ok ["x.txt"]
  ObjectDelete := fun _ _ _ => none
  ObjectMove := fun _ _ _ _ _ => none

/-! ## Reference definitions, following the specification -/

/-- Specification of Create Container: a token is a shorthand when it is `-gr`
or `-rm-gr`. -/
def specIsShorthand (t : String) : Prop := t = "-gr" ∨ t = "-rm-gr"

instance (t : String) : Decidable (specIsShorthand t) := by
  unfold specIsShorthand; infer_instance

/-- Specification of Create Container: a shorthand token is replaced by its
fixed header string, any other token is used verbatim. -/
def specExpand (t : String) : String :=
  if t = "-gr" then "X-Container-Read:.r:*"
  else if t = "-rm-gr" then "X-Remove-Container-Read:1"
  else t

/-- Specification of Create Container: a resolved token is split on its first
colon into (key, value). -/
def specSplit (t : String) : String × String :=
  (String.mk (t.data.takeWhile (fun c => c != ':')),
   String.mk ((t.data.dropWhile (fun c => c != ':')).drop 1))

/-- Specification of Create Container: the header entry of a token. -/
def specEntry (t : String) : String × String := specSplit (specExpand t)

/-- Specification of Create Container: the header map, folding left over the
tokens and setting `M[key] = value` for each. -/
def specHeaderMap (tokens : List String) : StrMap :=
  tokens.foldl (fun M t => mapInsert M (specEntry t).1 (specEntry t).2) []

/-- Specification of Create Container: the value that the header map holds for
a key is the value of the last token with that key. -/
def specLastValue (tokens : List String) (k : String) : Option String :=
  ((tokens.map specEntry).reverse.find? (fun p => p.1 == k)).map (fun p => p.2)

/-- A token that Create Container rejects: not a shorthand key and without a
colon. -/
def Malformed (t : String) : Prop := mapLookup shortHeaders t = none ∧ ':' ∉ t.data

instance (t : String) : Decidable (Malformed t) := by
  unfold Malformed; infer_instance

/-! ## Runs -/

/-- Every call of the trace succeeded when it was issued: the call at index `k`
is answered without error after the `k` calls before it. -/
def AllOk (conn : Connection) (tr : List Call) : Prop :=
  ∀ k c, tr[k]? = some c → respError conn (tr.take k) c = none

/-- How a command step that issues call `c` after the calls `hist` ends: with the
empty string and the message `lead ++ e` when the call fails with error `e`, and
without error when the call succeeds. -/
def CallResult (conn : Connection) (hist : List Call) (c : Call) (lead : String)
    (o : Outcome) : Prop :=
  (∃ e, respError conn hist c = some e ∧ o = .ret "" (some (lead ++ e)))
    ∨ (respError conn hist c = none ∧ ∃ out, o = .ret out none)

/-- A run stops at its first failed call and reports it: a call of the trace that
failed with error `e` is the last call of the trace, and the command returned
the empty string with the message `lead c ++ e`. -/
def FailStop (conn : Connection) (lead : Call → String) (r : Outcome × World) : Prop :=
  ∀ k c e, r.2.trace[k]? = some c → respError conn (r.2.trace.take k) c = some e →
    r.2.trace.length = k + 1 ∧ r.1 = .ret "" (some (lead c ++ e))

/-- The six commands of the package. -/
inductive Command where
  | ShowContainers
  | GetContainerInfo
  | MakeContainer
  | DeleteContainer
  | UpdateContainer
  | RenameContainer
deriving DecidableEq, Repr

/-- The text that a command puts in front of the underlying error when one of
its remote calls fails, read off the `fmt.Errorf` format strings of the command
and of the commands it calls; the empty string for a call that the command
never issues. -/
def messageLead : Command → Call → String
  | .ShowContainers, .ContainerNamesAll => "Failed to get containers: "
  | .GetContainerInfo, .Container c => "Failed to get container info for container " ++ c ++ ": "
  | .MakeContainer, .ContainerCreate _ _ => "Failed to create container: "
  | .DeleteContainer, .ObjectNamesAll _ => "Failed to get objects to delete: "
  | .DeleteContainer, .ObjectDelete _ o => "Failed to delete object " ++ o ++ ": "
  | .DeleteContainer, .ContainerDelete _ => "Failed to delete container: "
  | .UpdateContainer, .Container c =>
    "Failed to get container " ++ c ++ ": "
      ++ ("Failed to get container info for container " ++ c ++ ": ")
  | .UpdateContainer, .ContainerCreate _ _ =>
    "Failed to make container: Failed to create container: "
  | .RenameContainer, .Container c => "Failed to get container " ++ c ++ ": "
  | .RenameContainer, .ContainerCreate _ _ =>
    "Failed to make container: Failed to create container: "
  | .RenameContainer, .ObjectNamesAll _ => "Failed to get objects to move: "
  | .RenameContainer, .ObjectMove _ o _ _ => "Failed to move object " ++ o ++ ": "
  | .RenameContainer, .ContainerDelete _ =>
    "Failed to delete container: Failed to delete container: "
  | _, _ => ""

/-- The string `t` occurs in the string `s`. -/
def Occurs (t s : String) : Prop := ∃ a b, s = a ++ t ++ b

/-- A remote store whose calls all succeed, whatever was issued before. -/
def Succeeds (conn : Connection) : Prop := ∀ hist c, respError conn hist c = none

/-- A store in which every call succeeds and every container enumerates the two
objects `a` and `b`. -/
def abStore : Connection where
  ContainerNamesAll := fun _ => .ok ["c"]
  Container := fun _ c => .ok ({ Name := c, Count := 2, Bytes := 2 }, [])
  ContainerCreate := fun _ _ _ => none
  ContainerDelete := fun _ _ => none
  ObjectNamesAll := fun _ _ => .ok ["a", "b"]
  ObjectDelete := fun _ _ _ => none
  ObjectMove := fun _ _ _ _ _ => none

/-- The store `abStore`, except that deleting the object `b` fails with the
error `boom`. -/
def abFailStore : Connection :=
  { abStore with ObjectDelete := fun _ _ o => if o = "b" then some "boom" else none }

/-- A store in which creating and deleting a container fail with the error
`boom`, and every other call succeeds. -/
def boomStore : Connection :=
  { abStore with
    ContainerCreate := fun _ _ _ => some "boom"
    ContainerDelete := fun _ _ => some "boom" }

/-- Decision procedure for `Occurs` on character lists: some suffix of the
second list starts with the first. -/
def occursIn (t : List Char) : List Char → Bool
  | [] => startsWith [] t
  | c :: s => startsWith (c :: s) t || occursIn t s

/-- A store in which every call succeeds; the container fetch returns a header
whose value contains colons and a header whose key is a shorthand key. -/
def colonStore : Connection :=
  { abStore with
    Container := fun _ c =>
      .ok ({ Name := c, Count := 2, Bytes := 2 },
        [("X-Container-Meta-Foo", "Bar:baz:"), ("-gr", "")]) }

/-! Theorems -/

/-! ## Maps -/

theorem mapLookup_mapInsert (m : StrMap) (k v k' : String) :
    mapLookup (mapInsert m k v) k' = if k = k' then some v else mapLookup m k' := by
  induction m with
  | nil => simp [mapInsert, mapLookup]
  | cons p rest ih =>
    obtain ⟨a, b⟩ := p
    by_cases hak : a = k
    · subst hak
      by_cases hk : a = k' <;> simp [mapInsert, mapLookup, hk]
    · by_cases hk : k = k'
      · subst hk
        simp [mapInsert, mapLookup, hak, ih]
      · simp [mapInsert, mapLookup, hak, ih, hk]

theorem mapInsert_keys_fresh (m : StrMap) (k v : String) (h : k ∉ m.map Prod.fst) :
    mapInsert m k v = m ++ [(k, v)] := by
  induction m with
  | nil => simp [mapInsert]
  | cons p rest ih =>
    obtain ⟨a, b⟩ := p
    simp only [List.map_cons, List.mem_cons, not_or] at h
    have hne : ¬ a = k := fun e => h.1 e.symm
    simp [mapInsert, hne, ih h.2]

theorem mapInsert_keys_nodup (m : StrMap) (k v : String) (h : (m.map Prod.fst).Nodup) :
    ((mapInsert m k v).map Prod.fst).Nodup := by
  have key : ∀ m : StrMap, (mapInsert m k v).map Prod.fst =
      if k ∈ m.map Prod.fst then m.map Prod.fst else m.map Prod.fst ++ [k] := by
    intro m
    induction m with
    | nil => simp [mapInsert]
    | cons p rest ih =>
      obtain ⟨a, b⟩ := p
      by_cases hak : a = k
      · subst hak; simp [mapInsert]
      · have hka : ¬ k = a := fun e => hak e.symm
        simp only [mapInsert, hak, if_false, List.map_cons, ih, List.mem_cons, hka, false_or]
        split <;> simp
  rw [key]
  split
  · exact h
  · rename_i hk
    exact List.Nodup.append h (List.nodup_singleton k) (by simpa using hk)

/-! ## Splitting a token -/

theorem startsWith_colon (c : Char) (s : List Char) :
    startsWith (c :: s) [':'] = (c == ':') := by
  cases s <;> simp [startsWith]

theorem cut_colon (s : List Char) :
    cut s [':'] = if ':' ∈ s
      then some (s.takeWhile (fun c => c != ':'), (s.dropWhile (fun c => c != ':')).drop 1)
      else none := by
  induction s with
  | nil => simp [cut, startsWith]
  | cons c s ih =>
    by_cases hc : c = ':'
    · subst hc
      simp [cut, startsWith_colon]
    · have hc2 : ¬ ':' = c := fun e => hc e.symm
      have hb : (c != ':') = true := by simpa using hc
      simp only [cut, startsWith_colon, beq_iff_eq, hc, if_false, ih, List.mem_cons, hc2,
        false_or]
      split <;> simp [List.takeWhile, List.dropWhile, hb]

theorem SplitN_colon (s : String) :
    SplitN s ":" 2 = if ':' ∈ s.data then [(specSplit s).1, (specSplit s).2] else [s] := by
  have h : (":" : String).data = [':'] := rfl
  have h2 : ¬ (2 = 0) := by decide
  simp only [SplitN, h, genSplit, cut_colon, h2, if_false]
  by_cases hc : ':' ∈ s.data
  · simp [hc, genSplit, specSplit]
  · simp [hc]

theorem mapLookup_shortHeaders (t : String) :
    mapLookup shortHeaders t =
      if t = "-gr" then some "X-Container-Read:.r:*"
      else if t = "-rm-gr" then some "X-Remove-Container-Read:1" else none := by
  simp only [shortHeaders, mapLookup]
  by_cases h1 : t = "-gr"
  · simp [h1]
  · have h1b : ¬ "-gr" = t := fun e => h1 e.symm
    by_cases h2 : t = "-rm-gr"
    · simp [h2]
    · have h2b : ¬ "-rm-gr" = t := fun e => h2 e.symm
      simp [h1, h2, h1b, h2b]

/-! ## The header loop of `MakeContainer` -/

theorem specEntry_gr : specEntry "-gr" = ("X-Container-Read", ".r:*") := by decide

theorem specEntry_rm_gr : specEntry "-rm-gr" = ("X-Remove-Container-Read", "1") := by decide

theorem parseHeaders_cons (h : String) (rest : List String) (m : StrMap) :
    parseHeaders (h :: rest) m =
      if Malformed h then none
      else parseHeaders rest (mapInsert m (specEntry h).1 (specEntry h).2) := by
  by_cases h1 : h = "-gr"
  · subst h1
    have hm : ¬ Malformed "-gr" := by decide
    have hs : SplitN "X-Container-Read:.r:*" ":" 2 = ["X-Container-Read", ".r:*"] := by decide
    simp only [hm, if_false, specEntry_gr]
    simp [parseHeaders, mapLookup_shortHeaders, hs]
  · by_cases h2 : h = "-rm-gr"
    · subst h2
      have hm : ¬ Malformed "-rm-gr" := by decide
      have hs : SplitN "X-Remove-Container-Read:1" ":" 2 = ["X-Remove-Container-Read", "1"] := by
        decide
      have hl : mapLookup shortHeaders "-rm-gr" = some "X-Remove-Container-Read:1" := by decide
      simp only [hm, if_false, specEntry_rm_gr]
      simp [parseHeaders, hl, hs]
    · have hl : mapLookup shortHeaders h = none := by
        simp [mapLookup_shortHeaders, h1, h2]
      have he : specExpand h = h := by simp [specExpand, h1, h2]
      by_cases hc : ':' ∈ h.data
      · have hm : ¬ Malformed h := fun hm => hm.2 hc
        simp [parseHeaders, hl, SplitN_colon, hc, hm, specEntry, he]
      · have hm : Malformed h := ⟨hl, hc⟩
        simp [parseHeaders, hl, SplitN_colon, hc, hm]

theorem parseHeaders_wellformed (toks : List String) (m : StrMap)
    (h : ∀ t ∈ toks, ¬ Malformed t) :
    parseHeaders toks m =
      some (toks.foldl (fun M t => mapInsert M (specEntry t).1 (specEntry t).2) m) := by
  induction toks generalizing m with
  | nil => simp [parseHeaders]
  | cons t rest ih =>
    have ht : ¬ Malformed t := h t (by simp)
    rw [parseHeaders_cons, if_neg ht, ih _ (fun u hu => h u (by simp [hu]))]
    simp

theorem parseHeaders_malformed (toks : List String) (m : StrMap)
    (h : ∃ t ∈ toks, Malformed t) : parseHeaders toks m = none := by
  induction toks generalizing m with
  | nil => simp at h
  | cons t rest ih =>
    rw [parseHeaders_cons]
    by_cases ht : Malformed t
    · simp [ht]
    · obtain ⟨u, hu, hbad⟩ := h
      rw [if_neg ht]
      apply ih
      rcases List.mem_cons.mp hu with e | e
      · exact absurd (e ▸ hbad) ht
      · exact ⟨u, e, hbad⟩

theorem mapLookup_foldl (toks : List String) (m : StrMap) (k : String) :
    mapLookup (toks.foldl (fun M t => mapInsert M (specEntry t).1 (specEntry t).2) m) k =
      (specLastValue toks k).or (mapLookup m k) := by
  induction toks generalizing m with
  | nil => simp [specLastValue]
  | cons t rest ih =>
    rw [List.foldl_cons, ih, mapLookup_mapInsert]
    simp only [specLastValue, List.map_cons, List.reverse_cons, List.find?_append]
    cases hfind : List.find? (fun p => p.1 == k) (List.map specEntry rest).reverse with
    | some p => simp
    | none =>
      by_cases hk : (specEntry t).1 = k
      · simp [hk]
      · simp [hk]

theorem foldl_keys_nodup (toks : List String) (m : StrMap) (h : (m.map Prod.fst).Nodup) :
    ((toks.foldl (fun M t => mapInsert M (specEntry t).1 (specEntry t).2) m).map
      Prod.fst).Nodup := by
  induction toks generalizing m with
  | nil => simpa using h
  | cons t rest ih =>
    rw [List.foldl_cons]
    exact ih _ (mapInsert_keys_nodup m _ _ h)

/-! ## `MakeContainer` -/

theorem MakeContainer_unfold (W : WriterPkg) (dest : Destination)
    (a0 a1 svc c : String) (toks : List String) (w : World) :
    MakeContainer W dest (a0 :: a1 :: svc :: c :: toks) w =
      match parseHeaders toks [] with
      | none =>
        (.ret "" (some "Unable to parse headers (must use format header-name:header-value)"),
          w.SetCurrentStage "Creating container")
      | some headerMap =>
        match dest with
        | .other => (.panic, w.SetCurrentStage "Creating container")
        | .swift conn =>
          match conn.ContainerCreate w.trace c headerMap with
          | some err =>
            (.ret "" (some ("Failed to create container: " ++ err)),
              (w.SetCurrentStage "Creating container").call (.ContainerCreate c headerMap))
          | none =>
            (.ret ("\r" ++ W.ClearLine ++ W.Green "OK" ++ "\n\nCreated container " ++ c
              ++ " in OS " ++ svc ++ "\n") none,
              (w.SetCurrentStage "Creating container").call (.ContainerCreate c headerMap)) := by
  simp only [MakeContainer, List.getElem?_cons_succ, List.getElem?_cons_zero, List.drop_succ_cons,
    List.drop_zero, World.SetCurrentStage]
  cases parseHeaders toks [] <;> cases dest <;> rfl

theorem args_of_getElem3 (args : List String) (c : String) (h : args[3]? = some c) :
    ∃ a0 a1 svc toks, args = a0 :: a1 :: svc :: c :: toks := by
  match args, h with
  | a0 :: a1 :: svc :: c2 :: toks, h =>
    simp at h
    exact ⟨a0, a1, svc, toks, by rw [h]⟩

theorem args_of_length5 (args : List String) (h : 5 ≤ args.length) :
    ∃ a0 a1 svc c t toks, args = a0 :: a1 :: svc :: c :: t :: toks := by
  match args, h with
  | a0 :: a1 :: svc :: c :: t :: toks, _ => exact ⟨a0, a1, svc, c, t, toks, rfl⟩

/-- C2: for arguments whose header tokens are each a shorthand key or contain a
colon, and a remote create that succeeds, `MakeContainer` returns without error
after exactly one remote call, `ContainerCreate(args[3], M)`, where `M` is the
map of the specification: fold left over the tokens, expand a shorthand, split
at the first colon (so `a:b:c` has key `a` and value `b:c`) and set
`M[key] = value`; `M` has distinct keys and holds, for each key, the value of
the last token with that key. -/
theorem MakeContainer_header_map (W : WriterPkg) (conn : Connection) (args : List String)
    (c : String) (hc : args[3]? = some c)
    (htok : ∀ t ∈ args.drop 4, (mapLookup shortHeaders t).isSome ∨ ':' ∈ t.data)
    (hok : conn.ContainerCreate [] c (specHeaderMap (args.drop 4)) = none) :
    (MakeContainer W (.swift conn) args World.init).2.trace =
        [.ContainerCreate c (specHeaderMap (args.drop 4))]
      ∧ (∃ out, (MakeContainer W (.swift conn) args World.init).1 = .ret out none)
      ∧ ((specHeaderMap (args.drop 4)).map Prod.fst).Nodup
      ∧ (∀ k, mapLookup (specHeaderMap (args.drop 4)) k = specLastValue (args.drop 4) k)
      ∧ specEntry "a:b:c" = ("a", "b:c") := by
  obtain ⟨a0, a1, svc, toks, rfl⟩ := args_of_getElem3 args c hc
  have hwf : ∀ t ∈ toks, ¬ Malformed t := by
    intro t ht hm
    rcases htok t (by simpa using ht) with h | h
    · rw [hm.1] at h; simp at h
    · exact hm.2 h
  have hdrop : (a0 :: a1 :: svc :: c :: toks).drop 4 = toks := rfl
  rw [hdrop] at hok ⊢
  have hp := parseHeaders_wellformed toks [] hwf
  have hM : toks.foldl (fun M t => mapInsert M (specEntry t).1 (specEntry t).2) []
      = specHeaderMap toks := rfl
  rw [hM] at hp
  have hinit : World.init.trace = [] := rfl
  refine ⟨?_, ?_, ?_, ?_, by decide⟩
  · rw [MakeContainer_unfold, hp]
    simp only [hinit, hok]
    rfl
  · rw [MakeContainer_unfold, hp]
    simp only [hinit, hok]
    exact ⟨_, rfl⟩
  · exact foldl_keys_nodup toks [] (by simp)
  · intro k
    have h := mapLookup_foldl toks [] k
    rw [hM] at h
    rw [h]
    simp [mapLookup]

/-- Witness of `MakeContainer_header_map`: the tokens `-gr`, `a:b:c`, `a:d` give
one create call whose map holds `.r:*` for `X-Container-Read` and `d` for `a`. -/
theorem MakeContainer_header_map_witness :
    (MakeContainer W0 (.swift fooStore) ["p", "c", "svc", "bucket", "-gr", "a:b:c", "a:d"]
        World.init).2.trace =
      [.ContainerCreate "bucket" [("X-Container-Read", ".r:*"), ("a", "d")]] :=
  (MakeContainer_header_map W0 fooStore ["p", "c", "svc", "bucket", "-gr", "a:b:c", "a:d"]
    "bucket" (by decide) (by decide) (by decide)).1

/-- C3: when some header token of `args[4:]` is neither a shorthand key nor
contains a colon, wherever it stands among the tokens, `MakeContainer` returns
the empty string with the error "Unable to parse headers (must use format
header-name:header-value)" and has issued no remote call, whatever the
destination is. -/
theorem MakeContainer_rejects_malformed (W : WriterPkg) (dest : Destination)
    (args : List String) (hlen : 5 ≤ args.length) (hbad : ∃ t ∈ args.drop 4, Malformed t) :
    (MakeContainer W dest args World.init).1 =
        .ret "" (some "Unable to parse headers (must use format header-name:header-value)")
      ∧ (MakeContainer W dest args World.init).2.trace = [] := by
  obtain ⟨a0, a1, svc, c, t, toks, rfl⟩ := args_of_length5 args hlen
  have hdrop : (a0 :: a1 :: svc :: c :: t :: toks).drop 4 = t :: toks := rfl
  rw [hdrop] at hbad
  rw [MakeContainer_unfold, parseHeaders_malformed (t :: toks) [] hbad]
  exact ⟨rfl, rfl⟩

/-- Witness of `MakeContainer_rejects_malformed`: the token `badheader`, after a
valid token and a shorthand. -/
theorem MakeContainer_rejects_malformed_witness :
    (MakeContainer W0 (.swift fooStore)
        ["ignored", "ignored", "svcA", "mybucket", "k:v", "-gr", "badheader"] World.init).1 =
        .ret "" (some "Unable to parse headers (must use format header-name:header-value)")
      ∧ (MakeContainer W0 (.swift fooStore)
        ["ignored", "ignored", "svcA", "mybucket", "k:v", "-gr", "badheader"] World.init).2.trace
        = [] :=
  MakeContainer_rejects_malformed W0 (.swift fooStore)
    ["ignored", "ignored", "svcA", "mybucket", "k:v", "-gr", "badheader"] (by decide)
    ⟨"badheader", by decide, by decide⟩

theorem specLastValue_none (toks : List String) (k : String)
    (h : ∀ t ∈ toks, (specEntry t).1 ≠ k) : specLastValue toks k = none := by
  simp only [specLastValue, Option.map_eq_none', List.find?_eq_none, List.mem_reverse,
    List.mem_map]
  rintro p ⟨t, ht, rfl⟩
  simpa using h t ht

theorem parseHeaders_around (pre post : List String) (t : String) (ht : ¬ Malformed t)
    (hwf : ∀ u ∈ pre ++ post, ¬ Malformed u) :
    parseHeaders (pre ++ t :: post) [] =
      some (post.foldl (fun M u => mapInsert M (specEntry u).1 (specEntry u).2)
        (mapInsert (specHeaderMap pre) (specEntry t).1 (specEntry t).2)) := by
  have hall : ∀ u ∈ pre ++ t :: post, ¬ Malformed u := by
    intro u hu
    simp only [List.mem_append, List.mem_cons] at hu
    rcases hu with h | rfl | h
    · exact hwf u (by simp [h])
    · exact ht
    · exact hwf u (by simp [h])
  rw [parseHeaders_wellformed _ [] hall, List.foldl_append, List.foldl_cons]
  rfl

theorem MakeContainer_trace_of_parse (W : WriterPkg) (conn : Connection)
    (a0 a1 svc c : String) (toks : List String) (M : StrMap)
    (hp : parseHeaders toks [] = some M) :
    (MakeContainer W (.swift conn) (a0 :: a1 :: svc :: c :: toks) World.init).2.trace
      = [.ContainerCreate c M] := by
  rw [MakeContainer_unfold, hp]
  dsimp only
  cases conn.ContainerCreate World.init.trace c M <;> rfl

theorem mapLookup_after (post : List String) (m : StrMap) (k v : String)
    (h : ∀ t ∈ post, (specEntry t).1 ≠ k) :
    mapLookup (post.foldl (fun M u => mapInsert M (specEntry u).1 (specEntry u).2)
      (mapInsert m k v)) k = some v := by
  rw [mapLookup_foldl, specLastValue_none post k h, mapLookup_mapInsert]
  simp

/-- C4: in `MakeContainer` the token `-gr`, which has no colon, sets
`X-Container-Read` to `.r:*` and the token `-rm-gr`, which has no colon, sets
`X-Remove-Container-Read` to `1`, in the header map that reaches the remote
store: wherever the token stands among well-formed header tokens, the one
remote call is `ContainerCreate(args[3], M)`, where `M` is the map of the
tokens before it, with that entry set, followed by the entries of the tokens
after it, and `M` holds that value for that key unless a later token sets the
same key again; alone, `-gr` gives the map `{X-Container-Read: .r:*}` and
`-rm-gr` the map `{X-Remove-Container-Read: 1}`. For the arguments
`ignored ignored svcA mybucket -gr` and a create that succeeds the one remote
call is `ContainerCreate(mybucket, {X-Container-Read: .r:*})` and the string
returned ends with "Created container mybucket in OS svcA\n". -/
theorem MakeContainer_shorthand (W : WriterPkg) (conn : Connection)
    (hok : conn.ContainerCreate [] "mybucket" [("X-Container-Read", ".r:*")] = none) :
    (∀ rest m, parseHeaders ("-gr" :: rest) m
        = parseHeaders rest (mapInsert m "X-Container-Read" ".r:*"))
      ∧ (∀ rest m, parseHeaders ("-rm-gr" :: rest) m
        = parseHeaders rest (mapInsert m "X-Remove-Container-Read" "1"))
      ∧ ':' ∉ "-gr".data ∧ ':' ∉ "-rm-gr".data
      ∧ (MakeContainer W (.swift conn) ["ignored", "ignored", "svcA", "mybucket", "-gr"]
          World.init).2.trace = [.ContainerCreate "mybucket" [("X-Container-Read", ".r:*")]]
      ∧ (MakeContainer W (.swift conn) ["ignored", "ignored", "svcA", "mybucket", "-gr"]
          World.init).1 =
        .ret (("\r" ++ W.ClearLine ++ W.Green "OK" ++ "\n\n")
          ++ "Created container mybucket in OS svcA\n") none
      ∧ (∀ (a0 a1 svc c : String) (pre post : List String),
          (∀ u ∈ pre ++ post, ¬ Malformed u) →
          (MakeContainer W (.swift conn) (a0 :: a1 :: svc :: c :: (pre ++ "-gr" :: post))
              World.init).2.trace
            = [.ContainerCreate c
                (post.foldl (fun M u => mapInsert M (specEntry u).1 (specEntry u).2)
                  (mapInsert (specHeaderMap pre) "X-Container-Read" ".r:*"))]
          ∧ ((∀ u ∈ post, (specEntry u).1 ≠ "X-Container-Read") →
            mapLookup
                (post.foldl (fun M u => mapInsert M (specEntry u).1 (specEntry u).2)
                  (mapInsert (specHeaderMap pre) "X-Container-Read" ".r:*"))
                "X-Container-Read" = some ".r:*"))
      ∧ (∀ (a0 a1 svc c : String) (pre post : List String),
          (∀ u ∈ pre ++ post, ¬ Malformed u) →
          (MakeContainer W (.swift conn) (a0 :: a1 :: svc :: c :: (pre ++ "-rm-gr" :: post))
              World.init).2.trace
            = [.ContainerCreate c
                (post.foldl (fun M u => mapInsert M (specEntry u).1 (specEntry u).2)
                  (mapInsert (specHeaderMap pre) "X-Remove-Container-Read" "1"))]
          ∧ ((∀ u ∈ post, (specEntry u).1 ≠ "X-Remove-Container-Read") →
            mapLookup
                (post.foldl (fun M u => mapInsert M (specEntry u).1 (specEntry u).2)
                  (mapInsert (specHeaderMap pre) "X-Remove-Container-Read" "1"))
                "X-Remove-Container-Read" = some "1"))
      ∧ (∀ (a0 a1 svc c : String),
          (MakeContainer W (.swift conn) [a0, a1, svc, c, "-gr"] World.init).2.trace
            = [.ContainerCreate c [("X-Container-Read", ".r:*")]]
          ∧ (MakeContainer W (.swift conn) [a0, a1, svc, c, "-rm-gr"] World.init).2.trace
            = [.ContainerCreate c [("X-Remove-Container-Read", "1")]]
          ∧ (MakeContainer W (.swift conn) [a0, a1, svc, c, "-gr", "-rm-gr"]
              World.init).2.trace
            = [.ContainerCreate c
                [("X-Container-Read", ".r:*"), ("X-Remove-Container-Read", "1")]]
          ∧ (MakeContainer W (.swift conn) [a0, a1, svc, c, "k:v", "-rm-gr", "-gr"]
              World.init).2.trace
            = [.ContainerCreate c
                [("k", "v"), ("X-Remove-Container-Read", "1"),
                  ("X-Container-Read", ".r:*")]]) := by
  have hgr : ¬ Malformed "-gr" := by decide
  have hrm : ¬ Malformed "-rm-gr" := by decide
  have hp : parseHeaders ["-gr"] [] = some [("X-Container-Read", ".r:*")] := by decide
  have hinit : World.init.trace = [] := rfl
  refine ⟨?_, ?_, by decide, by decide, ?_, ?_, ?_, ?_, ?_⟩
  · intro rest m
    rw [parseHeaders_cons, if_neg hgr, specEntry_gr]
  · intro rest m
    rw [parseHeaders_cons, if_neg hrm, specEntry_rm_gr]
  · rw [MakeContainer_unfold, hp]
    simp only [hinit, hok]
    rfl
  · rw [MakeContainer_unfold, hp]
    simp only [hinit, hok]
    congr 1
    apply String.ext
    simp [String.data_append]
  · intro a0 a1 svc c pre post hwf
    have hparse := parseHeaders_around pre post "-gr" hgr hwf
    rw [specEntry_gr] at hparse
    exact ⟨MakeContainer_trace_of_parse W conn a0 a1 svc c _ _ hparse,
      fun h => mapLookup_after post _ _ _ h⟩
  · intro a0 a1 svc c pre post hwf
    have hparse := parseHeaders_around pre post "-rm-gr" hrm hwf
    rw [specEntry_rm_gr] at hparse
    exact ⟨MakeContainer_trace_of_parse W conn a0 a1 svc c _ _ hparse,
      fun h => mapLookup_after post _ _ _ h⟩
  · intro a0 a1 svc c
    exact ⟨MakeContainer_trace_of_parse W conn a0 a1 svc c _ _ (by decide),
      MakeContainer_trace_of_parse W conn a0 a1 svc c _ _ (by decide),
      MakeContainer_trace_of_parse W conn a0 a1 svc c _ _ (by decide),
      MakeContainer_trace_of_parse W conn a0 a1 svc c _ _ (by decide)⟩

/-- Witness of `MakeContainer_shorthand` on a store where every call succeeds:
the scenario of the specification, and `-rm-gr` between two other tokens, the
second of which sets `X-Container-Read`. -/
theorem MakeContainer_shorthand_witness :
    (MakeContainer W0 (.swift fooStore) ["ignored", "ignored", "svcA", "mybucket", "-gr"]
        World.init).1 =
      .ret "\r<clear><green>OK\n\nCreated container mybucket in OS svcA\n" none
    ∧ (MakeContainer W0 (.swift fooStore) ["p", "c", "svc", "bucket", "k:v", "-rm-gr", "-gr"]
        World.init).2.trace
      = [.ContainerCreate "bucket"
          [("k", "v"), ("X-Remove-Container-Read", "1"), ("X-Container-Read", ".r:*")]]
    ∧ mapLookup [("k", "v"), ("X-Remove-Container-Read", "1"), ("X-Container-Read", ".r:*")]
        "X-Remove-Container-Read" = some "1" :=
  ⟨(MakeContainer_shorthand W0 fooStore (by decide)).2.2.2.2.2.1,
    ((MakeContainer_shorthand W0 fooStore (by decide)).2.2.2.2.2.2.2.1
      "p" "c" "svc" "bucket" ["k:v"] ["-gr"] (by decide)).1,
    ((MakeContainer_shorthand W0 fooStore (by decide)).2.2.2.2.2.2.2.1
      "p" "c" "svc" "bucket" ["k:v"] ["-gr"] (by decide)).2 (by decide)⟩

/-! ## Runs that stop at the first failure -/

theorem AllOk_nil (conn : Connection) : AllOk conn [] := by
  intro k c h
  simp at h

theorem AllOk_snoc (conn : Connection) (tr : List Call) (c : Call)
    (h : AllOk conn tr) (hc : respError conn tr c = none) : AllOk conn (tr ++ [c]) := by
  intro k c2 hk
  rcases Nat.lt_trichotomy k tr.length with hlt | heq | hgt
  · rw [List.getElem?_append_left hlt] at hk
    rw [List.take_append_of_le_length (Nat.le_of_lt hlt)]
    exact h k c2 hk
  · subst heq
    simp at hk
    subst hk
    simpa using hc
  · have : (tr ++ [c])[k]? = none := by
      apply List.getElem?_eq_none
      simp
      omega
    rw [this] at hk
    cases hk

theorem FailStop_of_allOk (conn : Connection) (lead : Call → String) (r : Outcome × World)
    (h : AllOk conn r.2.trace) : FailStop conn lead r := by
  intro k c e hk he
  rw [h k c hk] at he
  cases he

theorem FailStop_of_last (conn : Connection) (lead : Call → String) (r : Outcome × World)
    (tr : List Call) (c : Call) (htr : r.2.trace = tr ++ [c]) (h : AllOk conn tr)
    (hmsg : ∀ e, respError conn tr c = some e → r.1 = .ret "" (some (lead c ++ e))) :
    FailStop conn lead r := by
  intro k c2 e hk he
  rw [htr] at hk he ⊢
  rcases Nat.lt_trichotomy k tr.length with hlt | heq | hgt
  · rw [List.getElem?_append_left hlt] at hk
    rw [List.take_append_of_le_length (Nat.le_of_lt hlt)] at he
    rw [h k c2 hk] at he
    cases he
  · subst heq
    simp at hk
    subst hk
    simp at he
    exact ⟨by simp, hmsg e he⟩
  · have : (tr ++ [c])[k]? = none := by
      apply List.getElem?_eq_none
      simp
      omega
    rw [this] at hk
    cases hk

theorem FailStop_of_callResult (conn : Connection) (lead : Call → String)
    (r : Outcome × World) (tr : List Call) (c : Call) (htr : r.2.trace = tr ++ [c])
    (h : AllOk conn tr) (hres : CallResult conn tr c (lead c) r.1) : FailStop conn lead r := by
  apply FailStop_of_last conn lead r tr c htr h
  intro e he
  rcases hres with ⟨e2, h2, hout⟩ | ⟨h2, _⟩
  · rw [h2] at he
    cases he
    exact hout
  · rw [h2] at he
    cases he

/-! ## The single-call steps -/

theorem ShowContainers_run (W : WriterPkg) (conn : Connection) (args : List String) (w : World)
    (svc : String) (hs : args[2]? = some svc) :
    (ShowContainers W (.swift conn) args w).2.trace = w.trace ++ [.ContainerNamesAll]
      ∧ CallResult conn w.trace .ContainerNamesAll "Failed to get containers: "
          (ShowContainers W (.swift conn) args w).1 := by
  simp only [ShowContainers, hs]
  cases h : conn.ContainerNamesAll (w.SetCurrentStage "Displaying containers").trace with
  | error e =>
    have h2 : conn.ContainerNamesAll w.trace = .error e := h
    exact ⟨rfl, Or.inl ⟨e, by simp [respError, h2], rfl⟩⟩
  | ok l =>
    have h2 : conn.ContainerNamesAll w.trace = .ok l := h
    exact ⟨rfl, Or.inr ⟨by simp [respError, h2], _, rfl⟩⟩

theorem GetContainerInfo_run (W : WriterPkg) (conn : Connection) (args : List String)
    (w : World) (c : String) (hc : args[3]? = some c) :
    (GetContainerInfo W (.swift conn) args w).2.trace = w.trace ++ [.Container c]
      ∧ CallResult conn w.trace (.Container c)
          ("Failed to get container info for container " ++ c ++ ": ")
          (GetContainerInfo W (.swift conn) args w).1 := by
  simp only [GetContainerInfo, hc]
  cases h : conn.Container (w.SetCurrentStage "Fetching container info").trace c with
  | error e =>
    have h2 : conn.Container w.trace c = .error e := h
    exact ⟨rfl, Or.inl ⟨e, by simp [respError, h2], rfl⟩⟩
  | ok p =>
    have h2 : conn.Container w.trace c = .ok p := h
    exact ⟨rfl, Or.inr ⟨by simp [respError, h2], _, rfl⟩⟩

theorem MakeContainer_run (W : WriterPkg) (conn : Connection) (a0 a1 svc c : String)
    (toks : List String) (w : World) (M : StrMap) (hp : parseHeaders toks [] = some M) :
    (MakeContainer W (.swift conn) (a0 :: a1 :: svc :: c :: toks) w).2.trace
        = w.trace ++ [.ContainerCreate c M]
      ∧ CallResult conn w.trace (.ContainerCreate c M) "Failed to create container: "
          (MakeContainer W (.swift conn) (a0 :: a1 :: svc :: c :: toks) w).1 := by
  rw [MakeContainer_unfold, hp]
  dsimp only
  cases h : conn.ContainerCreate w.trace c M with
  | some e => exact ⟨rfl, Or.inl ⟨e, by simp [respError, h], rfl⟩⟩
  | none => exact ⟨rfl, Or.inr ⟨by simp [respError, h], _, rfl⟩⟩

theorem deleteContainerItself_run (W : WriterPkg) (conn : Connection) (svc c : String)
    (w : World) :
    (deleteContainerItself W (.swift conn) svc c w).2.trace = w.trace ++ [.ContainerDelete c]
      ∧ CallResult conn w.trace (.ContainerDelete c) "Failed to delete container: "
          (deleteContainerItself W (.swift conn) svc c w).1 := by
  simp only [deleteContainerItself]
  cases h : conn.ContainerDelete (w.SetCurrentStage "Deleting container").trace c with
  | some e =>
    have h2 : conn.ContainerDelete w.trace c = some e := h
    exact ⟨rfl, Or.inl ⟨e, by simp [respError, h2], rfl⟩⟩
  | none =>
    have h2 : conn.ContainerDelete w.trace c = none := h
    exact ⟨rfl, Or.inr ⟨by simp [respError, h2], _, rfl⟩⟩

/-! ## The object loops -/

theorem deleteObjects_run (conn : Connection) (c : String) (objs : List String) (w : World)
    (h : AllOk conn w.trace) :
    ((deleteObjects conn c objs w).1 = none
        ∧ (deleteObjects conn c objs w).2.trace = w.trace ++ objs.map (Call.ObjectDelete c)
        ∧ AllOk conn (deleteObjects conn c objs w).2.trace)
      ∨ (∃ n o e, objs[n]? = some o
        ∧ (deleteObjects conn c objs w).2.trace
            = w.trace ++ (objs.take n).map (Call.ObjectDelete c) ++ [.ObjectDelete c o]
        ∧ AllOk conn (w.trace ++ (objs.take n).map (Call.ObjectDelete c))
        ∧ conn.ObjectDelete (w.trace ++ (objs.take n).map (Call.ObjectDelete c)) c o = some e
        ∧ (deleteObjects conn c objs w).1 = some ("Failed to delete object " ++ o ++ ": " ++ e)) := by
  induction objs generalizing w with
  | nil => exact Or.inl ⟨rfl, by simp [deleteObjects], by simpa [deleteObjects] using h⟩
  | cons o rest ih =>
    simp only [deleteObjects]
    cases hd : conn.ObjectDelete w.trace c o with
    | some e =>
      exact Or.inr ⟨0, o, e, by simp, by simp [World.call], by simpa using h, by simpa using hd,
        rfl⟩
    | none =>
      have h1 : AllOk conn (w.call (.ObjectDelete c o)).trace :=
        AllOk_snoc conn w.trace _ h (by simpa [respError] using hd)
      have ht : (w.call (.ObjectDelete c o)).trace = w.trace ++ [.ObjectDelete c o] := rfl
      rcases ih (w.call (.ObjectDelete c o)) h1 with ⟨r1, r2, r3⟩ | ⟨n, o2, e, r1, r2, r3, r4, r5⟩
      · exact Or.inl ⟨r1, by simp [r2, ht], r3⟩
      · rw [ht] at r2 r3 r4
        exact Or.inr ⟨n + 1, o2, e, by simpa using r1, by simpa using r2, by simpa using r3,
          by simpa using r4, r5⟩

theorem moveObjects_run (conn : Connection) (c d : String) (objs : List String) (w : World)
    (h : AllOk conn w.trace) :
    ((moveObjects conn c d objs w).1 = none
        ∧ (moveObjects conn c d objs w).2.trace
            = w.trace ++ objs.map (fun o => Call.ObjectMove c o d o)
        ∧ AllOk conn (moveObjects conn c d objs w).2.trace)
      ∨ (∃ n o e, objs[n]? = some o
        ∧ (moveObjects conn c d objs w).2.trace
            = w.trace ++ (objs.take n).map (fun o => Call.ObjectMove c o d o)
                ++ [.ObjectMove c o d o]
        ∧ AllOk conn (w.trace ++ (objs.take n).map (fun o => Call.ObjectMove c o d o))
        ∧ conn.ObjectMove (w.trace ++ (objs.take n).map (fun o => Call.ObjectMove c o d o))
            c o d o = some e
        ∧ (moveObjects conn c d objs w).1 = some ("Failed to move object " ++ o ++ ": " ++ e)) := by
  induction objs generalizing w with
  | nil => exact Or.inl ⟨rfl, by simp [moveObjects], by simpa [moveObjects] using h⟩
  | cons o rest ih =>
    simp only [moveObjects]
    cases hd : conn.ObjectMove w.trace c o d o with
    | some e =>
      exact Or.inr ⟨0, o, e, by simp, by simp [World.call], by simpa using h, by simpa using hd,
        rfl⟩
    | none =>
      have h1 : AllOk conn (w.call (.ObjectMove c o d o)).trace :=
        AllOk_snoc conn w.trace _ h (by simpa [respError] using hd)
      have ht : (w.call (.ObjectMove c o d o)).trace = w.trace ++ [.ObjectMove c o d o] := rfl
      rcases ih (w.call (.ObjectMove c o d o)) h1 with ⟨r1, r2, r3⟩ | ⟨n, o2, e, r1, r2, r3, r4, r5⟩
      · exact Or.inl ⟨r1, by simp [r2, ht], r3⟩
      · rw [ht] at r2 r3 r4
        exact Or.inr ⟨n + 1, o2, e, by simpa using r1, by simpa using r2, by simpa using r3,
          by simpa using r4, r5⟩

/-! ## `DeleteContainer` -/

theorem DeleteContainer_plain_unfold (W : WriterPkg) (dest : Destination)
    (a0 a1 svc c : String) (rest : List String) (w : World) (hf : rest ≠ ["-f"]) :
    DeleteContainer W dest (a0 :: a1 :: svc :: c :: rest) w
      = deleteContainerItself W dest svc c w := by
  have hcond : ¬ ((a0 :: a1 :: svc :: c :: rest).length = 5
      ∧ (a0 :: a1 :: svc :: c :: rest)[4]? = some "-f") := by
    rintro ⟨h1, h2⟩
    apply hf
    match rest, h1, h2 with
    | [t], _, h2 =>
      simp at h2
      rw [h2]
  simp only [DeleteContainer, List.getElem?_cons_succ, List.getElem?_cons_zero]
  rw [if_neg]
  intro hh
  exact hcond (by simpa using hh)

theorem DeleteContainer_force_unfold (W : WriterPkg) (conn : Connection)
    (a0 a1 svc c : String) (w : World) :
    DeleteContainer W (.swift conn) [a0, a1, svc, c, "-f"] w =
      match conn.ObjectNamesAll w.trace c with
      | .error err =>
        (.ret "" (some ("Failed to get objects to delete: " ++ err)),
          (w.SetCurrentStage "Deleting objects in container").call (.ObjectNamesAll c))
      | .ok objects =>
        match deleteObjects conn c objects
            ((w.SetCurrentStage "Deleting objects in container").call (.ObjectNamesAll c)) with
        | (some msg, w2) => (.ret "" (some msg), w2)
        | (none, w2) => deleteContainerItself W (.swift conn) svc c w2 := by
  simp only [DeleteContainer, List.getElem?_cons_succ, List.getElem?_cons_zero]
  rw [if_pos]
  · rfl
  · simp

theorem DeleteContainer_force_run (W : WriterPkg) (conn : Connection)
    (a0 a1 svc c : String) (w : World) (h : AllOk conn w.trace) :
    (∃ e, conn.ObjectNamesAll w.trace c = .error e
        ∧ (DeleteContainer W (.swift conn) [a0, a1, svc, c, "-f"] w).2.trace
            = w.trace ++ [.ObjectNamesAll c]
        ∧ (DeleteContainer W (.swift conn) [a0, a1, svc, c, "-f"] w).1
            = .ret "" (some ("Failed to get objects to delete: " ++ e)))
      ∨ (∃ objs, conn.ObjectNamesAll w.trace c = .ok objs
        ∧ ((∃ n o e, objs[n]? = some o
            ∧ (DeleteContainer W (.swift conn) [a0, a1, svc, c, "-f"] w).2.trace
                = w.trace ++ [.ObjectNamesAll c] ++ (objs.take n).map (Call.ObjectDelete c)
                    ++ [.ObjectDelete c o]
            ∧ AllOk conn
                (w.trace ++ [.ObjectNamesAll c] ++ (objs.take n).map (Call.ObjectDelete c))
            ∧ conn.ObjectDelete
                (w.trace ++ [.ObjectNamesAll c] ++ (objs.take n).map (Call.ObjectDelete c))
                c o = some e
            ∧ (DeleteContainer W (.swift conn) [a0, a1, svc, c, "-f"] w).1
                = .ret "" (some ("Failed to delete object " ++ o ++ ": " ++ e)))
          ∨ ((DeleteContainer W (.swift conn) [a0, a1, svc, c, "-f"] w).2.trace
                = w.trace ++ [.ObjectNamesAll c] ++ objs.map (Call.ObjectDelete c)
                    ++ [.ContainerDelete c]
            ∧ AllOk conn (w.trace ++ [.ObjectNamesAll c] ++ objs.map (Call.ObjectDelete c))
            ∧ CallResult conn (w.trace ++ [.ObjectNamesAll c] ++ objs.map (Call.ObjectDelete c))
                (.ContainerDelete c) "Failed to delete container: "
                (DeleteContainer W (.swift conn) [a0, a1, svc, c, "-f"] w).1))) := by
  rw [DeleteContainer_force_unfold]
  cases hn : conn.ObjectNamesAll w.trace c with
  | error e => exact Or.inl ⟨e, rfl, rfl, rfl⟩
  | ok objs =>
    refine Or.inr ⟨objs, rfl, ?_⟩
    dsimp only
    have h1 : AllOk conn
        ((w.SetCurrentStage "Deleting objects in container").call (.ObjectNamesAll c)).trace :=
      AllOk_snoc conn w.trace _ h (by simp [respError, hn])
    have ht : ((w.SetCurrentStage "Deleting objects in container").call
        (.ObjectNamesAll c)).trace = w.trace ++ [.ObjectNamesAll c] := rfl
    rcases deleteObjects_run conn c objs _ h1 with ⟨r1, r2, r3⟩ | ⟨n, o, e, r1, r2, r3, r4, r5⟩
    · right
      rw [ht] at r2
      generalize deleteObjects conn c objs
        ((w.SetCurrentStage "Deleting objects in container").call (.ObjectNamesAll c)) = res
        at r1 r2 r3
      obtain ⟨m, w2⟩ := res
      simp only at r1 r2 r3
      subst r1
      dsimp only
      have hd := deleteContainerItself_run W conn svc c w2
      rw [r2] at hd r3
      exact ⟨hd.1, r3, hd.2⟩
    · left
      rw [ht] at r2 r3 r4
      generalize deleteObjects conn c objs
        ((w.SetCurrentStage "Deleting objects in container").call (.ObjectNamesAll c)) = res
        at r2 r5
      obtain ⟨m, w2⟩ := res
      simp only at r2 r5
      subst r5
      exact ⟨n, o, e, r1, r2, r3, r4, rfl⟩

theorem DeleteContainer_failStop (W : WriterPkg) (conn : Connection) (args : List String)
    (w : World) (h : AllOk conn w.trace) :
    FailStop conn (messageLead .DeleteContainer) (DeleteContainer W (.swift conn) args w) := by
  match args with
  | [] | [_] | [_, _] | [_, _, _] =>
    exact FailStop_of_allOk conn _ _ (by simpa [DeleteContainer] using h)
  | a0 :: a1 :: svc :: c :: rest =>
    by_cases hf : rest = ["-f"]
    · subst hf
      rcases DeleteContainer_force_run W conn a0 a1 svc c w h with
        ⟨e, h1, h2, h3⟩ | ⟨objs, h1, ⟨n, o, e, r1, r2, r3, r4, r5⟩ | ⟨r1, r2, r3⟩⟩
      · apply FailStop_of_last conn _ _ w.trace (.ObjectNamesAll c) h2 h
        intro e2 he2
        simp only [respError, h1] at he2
        cases he2
        exact h3
      · apply FailStop_of_last conn _ _ _ (.ObjectDelete c o) r2 r3
        intro e2 he2
        simp only [respError, r4] at he2
        cases he2
        exact r5
      · exact FailStop_of_callResult conn _ _ _ (.ContainerDelete c) r1 r2 r3
    · rw [DeleteContainer_plain_unfold W _ a0 a1 svc c rest w hf]
      have hd := deleteContainerItself_run W conn svc c w
      exact FailStop_of_callResult conn _ _ _ (.ContainerDelete c) hd.1 h hd.2

/-- C5: for arguments of length at least 4 and a store whose calls all succeed,
with `c = args[3]`: when the force flag is present (`len(args) = 5` and
`args[4] = "-f"`) the remote calls of `DeleteContainer` are `ObjectNamesAll(c)`,
then `ObjectDelete(c, o)` for each enumerated object `o` in the order of the
enumeration, then `ContainerDelete(c)`; when it is absent the only remote call
is `ContainerDelete(c)`. -/
theorem DeleteContainer_force_semantics (W : WriterPkg) (conn : Connection)
    (args : List String) (c : String) (hc : args[3]? = some c) (hs : Succeeds conn) :
    ((args.length = 5 ∧ args[4]? = some "-f") →
        ∃ objs, conn.ObjectNamesAll [] c = .ok objs
          ∧ (DeleteContainer W (.swift conn) args World.init).2.trace
              = [.ObjectNamesAll c] ++ objs.map (Call.ObjectDelete c) ++ [.ContainerDelete c])
      ∧ (¬ (args.length = 5 ∧ args[4]? = some "-f") →
        (DeleteContainer W (.swift conn) args World.init).2.trace = [.ContainerDelete c]) := by
  obtain ⟨a0, a1, svc, rest, rfl⟩ := args_of_getElem3 args c hc
  have hinit : World.init.trace = [] := rfl
  constructor
  · rintro ⟨h1, h2⟩
    have hrest : rest = ["-f"] := by
      match rest, h1, h2 with
      | [t], _, h2 =>
        simp at h2
        rw [h2]
    subst hrest
    rcases DeleteContainer_force_run W conn a0 a1 svc c World.init (AllOk_nil conn) with
      ⟨e, h1, _, _⟩ | ⟨objs, h1, ⟨n, o, e, _, _, _, r4, _⟩ | ⟨r1, _, _⟩⟩
    · have := hs [] (.ObjectNamesAll c)
      rw [hinit] at h1
      simp [respError, h1] at this
    · have := hs (World.init.trace ++ [.ObjectNamesAll c]
        ++ (objs.take n).map (Call.ObjectDelete c)) (.ObjectDelete c o)
      simp only [respError] at this
      rw [this] at r4
      cases r4
    · rw [hinit] at h1 r1
      exact ⟨objs, h1, by simpa using r1⟩
  · intro hf
    have hrest : rest ≠ ["-f"] := by
      rintro rfl
      exact hf ⟨rfl, rfl⟩
    rw [DeleteContainer_plain_unfold W _ a0 a1 svc c rest _ hrest]
    exact (deleteContainerItself_run W conn svc c World.init).1

/-- Witness of `DeleteContainer_force_semantics`: a forced delete on a store
that enumerates `a` and `b`. -/
theorem DeleteContainer_force_semantics_witness :
    ∃ objs, abStore.ObjectNamesAll [] "c" = .ok objs
      ∧ (DeleteContainer W0 (.swift abStore) ["p", "d", "svc", "c", "-f"] World.init).2.trace
          = [.ObjectNamesAll "c"] ++ objs.map (Call.ObjectDelete "c") ++ [.ContainerDelete "c"] :=
  (DeleteContainer_force_semantics W0 abStore ["p", "d", "svc", "c", "-f"] "c" rfl
    (fun _ c => by cases c <;> rfl)).1 ⟨rfl, rfl⟩

/-! ## `UpdateContainer` -/

theorem UpdateContainer_run (W : WriterPkg) (conn : Connection) (a0 a1 svc c : String)
    (toks : List String) (w : World) :
    (∃ e, respError conn w.trace (.Container c) = some e
        ∧ (UpdateContainer W (.swift conn) (a0 :: a1 :: svc :: c :: toks) w).2.trace
            = w.trace ++ [.Container c]
        ∧ (UpdateContainer W (.swift conn) (a0 :: a1 :: svc :: c :: toks) w).1
            = .ret "" (some ("Failed to get container " ++ c ++ ": "
                ++ ("Failed to get container info for container " ++ c ++ ": " ++ e))))
      ∨ (respError conn w.trace (.Container c) = none
        ∧ ((parseHeaders toks [] = none
            ∧ (UpdateContainer W (.swift conn) (a0 :: a1 :: svc :: c :: toks) w).2.trace
                = w.trace ++ [.Container c]
            ∧ (UpdateContainer W (.swift conn) (a0 :: a1 :: svc :: c :: toks) w).1
                = .ret "" (some ("Failed to make container: "
                    ++ "Unable to parse headers (must use format header-name:header-value)")))
          ∨ (∃ M, parseHeaders toks [] = some M
            ∧ (UpdateContainer W (.swift conn) (a0 :: a1 :: svc :: c :: toks) w).2.trace
                = w.trace ++ [.Container c] ++ [.ContainerCreate c M]
            ∧ ((∃ e, respError conn (w.trace ++ [.Container c]) (.ContainerCreate c M) = some e
                ∧ (UpdateContainer W (.swift conn) (a0 :: a1 :: svc :: c :: toks) w).1
                    = .ret "" (some ("Failed to make container: "
                        ++ ("Failed to create container: " ++ e))))
              ∨ (respError conn (w.trace ++ [.Container c]) (.ContainerCreate c M) = none
                ∧ ∃ out, (UpdateContainer W (.swift conn) (a0 :: a1 :: svc :: c :: toks) w).1
                    = .ret out none))))) := by
  have hg := GetContainerInfo_run W conn (a0 :: a1 :: svc :: c :: toks)
    (w.SetCurrentStage "Updating container") c (by simp)
  have hw : (w.SetCurrentStage "Updating container").trace = w.trace := rfl
  rw [hw] at hg
  simp only [UpdateContainer, List.getElem?_cons_succ, List.getElem?_cons_zero]
  generalize GetContainerInfo W (.swift conn) (a0 :: a1 :: svc :: c :: toks)
    (w.SetCurrentStage "Updating container") = res at hg
  obtain ⟨o1, w1⟩ := res
  obtain ⟨ht, ⟨e, he, ho⟩ | ⟨he, out, ho⟩⟩ := hg
  · simp only at ht ho
    subst ho
    exact Or.inl ⟨e, he, ht, rfl⟩
  · simp only at ht ho
    subst ho
    refine Or.inr ⟨he, ?_⟩
    dsimp only
    cases hp : parseHeaders toks [] with
    | none =>
      left
      rw [MakeContainer_unfold, hp]
      exact ⟨rfl, ht, rfl⟩
    | some M =>
      right
      have hm := MakeContainer_run W conn a0 a1 svc c toks w1 M hp
      generalize MakeContainer W (.swift conn) (a0 :: a1 :: svc :: c :: toks) w1 = res2 at hm
      obtain ⟨o2, w2⟩ := res2
      rw [ht] at hm
      obtain ⟨ht2, ⟨e, he2, ho2⟩ | ⟨he2, out2, ho2⟩⟩ := hm
      · simp only at ht2 ho2
        subst ho2
        exact ⟨M, rfl, ht2, Or.inl ⟨e, he2, rfl⟩⟩
      · simp only at ht2 ho2
        subst ho2
        exact ⟨M, rfl, ht2, Or.inr ⟨he2, _, rfl⟩⟩

/-! ## Slices and the arguments built by `RenameContainer` -/

theorem Slice_array_of_toList (args : Slice) (a0 a1 svc old new : String) (rest : List String)
    (h : args.toList = a0 :: a1 :: svc :: old :: new :: rest) :
    ∃ tail, args.array = a0 :: a1 :: svc :: old :: new :: tail := by
  have hsplit := List.take_append_drop args.len args.array
  have h2 : args.array.take args.len = a0 :: a1 :: svc :: old :: new :: rest := h
  rw [h2] at hsplit
  exact ⟨rest ++ args.array.drop args.len, by simpa using hsplit.symm⟩

theorem makeArg_toList (args : Slice) (a0 a1 svc old new : String) (rest toks : List String)
    (h : args.toList = a0 :: a1 :: svc :: old :: new :: rest) :
    (makeArg args new toks).1.toList = a0 :: a1 :: svc :: new :: toks := by
  obtain ⟨tail, ha⟩ := Slice_array_of_toList args a0 a1 svc old new rest h
  have e : 3 + (toks.length + 1) = toks.length + 1 + 1 + 1 + 1 := by omega
  simp only [makeArg, Slice.append, Slice.upTo, ha]
  split
  · simp [Slice.toList, e]
  · simp [Slice.toList]
    omega

theorem makeArg_deleteArgs (args : Slice) (a0 a1 svc old new : String) (rest toks : List String)
    (h : args.toList = a0 :: a1 :: svc :: old :: new :: rest) :
    (Slice.upTo { array := (makeArg args new toks).2, len := args.len } 4).toList
      = [a0, a1, svc, if 4 + toks.length ≤ args.array.length then new else old] := by
  obtain ⟨tail, ha⟩ := Slice_array_of_toList args a0 a1 svc old new rest h
  simp only [makeArg, Slice.append, Slice.upTo, ha, List.length_cons]
  have e1 : 3 + (toks.length + 1) = 4 + toks.length := by omega
  rw [e1]
  by_cases hcap : 4 + toks.length ≤ tail.length + 1 + 1 + 1 + 1 + 1
  · simp [Slice.toList, hcap]
  · simp [Slice.toList, hcap]

/-! ## The tokens built from a fetched header map -/

theorem headerToken_data (k v : String) : (k ++ ":" ++ v).data = k.data ++ ':' :: v.data := by
  simp [String.data_append]

theorem headerTokens_wellformed (H : StrMap) : ∀ t ∈ headerTokens H, ¬ Malformed t := by
  intro t ht hm
  simp only [headerTokens, List.mem_map] at ht
  obtain ⟨p, _, rfl⟩ := ht
  apply hm.2
  rw [headerToken_data]
  simp

theorem headerTokens_not_shorthand (H : StrMap) :
    ∀ t ∈ headerTokens H, mapLookup shortHeaders t = none := by
  intro t ht
  simp only [headerTokens, List.mem_map] at ht
  obtain ⟨p, _, rfl⟩ := ht
  have hc : ':' ∈ (p.1 ++ ":" ++ p.2).data := by
    rw [headerToken_data]
    simp
  rw [mapLookup_shortHeaders]
  have h1 : ¬ (p.1 ++ ":" ++ p.2 = "-gr") := by
    intro e
    rw [e] at hc
    revert hc
    decide
  have h2 : ¬ (p.1 ++ ":" ++ p.2 = "-rm-gr") := by
    intro e
    rw [e] at hc
    revert hc
    decide
  simp [h1, h2]

theorem parseHeaders_headerTokens (H : StrMap) :
    parseHeaders (headerTokens H) [] = some (specHeaderMap (headerTokens H)) :=
  parseHeaders_wellformed (headerTokens H) [] (headerTokens_wellformed H)

theorem specEntry_headerToken (k v : String) (hk : ':' ∉ k.data) :
    specEntry (k ++ ":" ++ v) = (k, v) := by
  have hc : ':' ∈ (k ++ ":" ++ v).data := by
    rw [headerToken_data]
    simp
  have h1 : ¬ (k ++ ":" ++ v = "-gr") := by
    intro e
    rw [e] at hc
    revert hc
    decide
  have h2 : ¬ (k ++ ":" ++ v = "-rm-gr") := by
    intro e
    rw [e] at hc
    revert hc
    decide
  have hall : ∀ c ∈ k.data, (c != ':') = true := by
    intro c hc2
    simp only [bne_iff_ne, ne_eq]
    rintro rfl
    exact hk hc2
  simp only [specEntry, specExpand, h1, h2, if_false, specSplit, headerToken_data]
  rw [List.takeWhile_append_of_pos hall, List.dropWhile_append_of_pos hall]
  simp [List.takeWhile, List.dropWhile]

theorem foldl_headerTokens (H m : StrMap) (hnodup : ((m ++ H).map Prod.fst).Nodup)
    (hkeys : ∀ p ∈ H, ':' ∉ p.1.data) :
    (headerTokens H).foldl (fun M t => mapInsert M (specEntry t).1 (specEntry t).2) m
      = m ++ H := by
  induction H generalizing m with
  | nil => simp [headerTokens]
  | cons p rest ih =>
    obtain ⟨k, v⟩ := p
    have hk : ':' ∉ k.data := hkeys (k, v) (by simp)
    have hfresh : k ∉ m.map Prod.fst := by
      intro hmem
      simp only [List.map_append, List.map_cons] at hnodup
      have := (List.nodup_append.mp hnodup).2.2
      exact this hmem (by simp)
    simp only [headerTokens, List.map_cons, List.foldl_cons, specEntry_headerToken k v hk]
    rw [mapInsert_keys_fresh m k v hfresh]
    have := ih (m ++ [(k, v)]) (by simpa using hnodup) (fun p hp => hkeys p (by simp [hp]))
    simpa [headerTokens] using this

theorem specHeaderMap_headerTokens (H : StrMap) (hnodup : (H.map Prod.fst).Nodup)
    (hkeys : ∀ p ∈ H, ':' ∉ p.1.data) : specHeaderMap (headerTokens H) = H := by
  have := foldl_headerTokens H [] (by simpa using hnodup) hkeys
  simpa [specHeaderMap] using this

/-! ## `RenameContainer` -/

theorem RenameContainer_run (W : WriterPkg) (conn : Connection) (args : Slice)
    (a0 a1 svc old new : String) (rest : List String)
    (h : args.toList = a0 :: a1 :: svc :: old :: new :: rest)
    (r : Outcome × World) (hr : RenameContainer W (.swift conn) args World.init = r) :
    (∃ e, conn.Container [] old = .error e
        ∧ r.2.trace = [.Container old]
        ∧ r.1 = .ret "" (some ("Failed to get container " ++ old ++ ": " ++ e)))
      ∨ (∃ info H, conn.Container [] old = .ok (info, H)
        ∧ ((∃ e, conn.ContainerCreate [.Container old] new (specHeaderMap (headerTokens H))
                = some e
            ∧ r.2.trace = [.Container old, .ContainerCreate new (specHeaderMap (headerTokens H))]
            ∧ r.1 = .ret "" (some ("Failed to make container: "
                ++ ("Failed to create container: " ++ e))))
          ∨ (conn.ContainerCreate [.Container old] new (specHeaderMap (headerTokens H)) = none
            ∧ ((∃ e, conn.ObjectNamesAll
                  [.Container old, .ContainerCreate new (specHeaderMap (headerTokens H))] old
                    = .error e
                ∧ r.2.trace = [.Container old,
                    .ContainerCreate new (specHeaderMap (headerTokens H)), .ObjectNamesAll old]
                ∧ r.1 = .ret "" (some ("Failed to get objects to move: " ++ e)))
              ∨ (∃ objs, conn.ObjectNamesAll
                  [.Container old, .ContainerCreate new (specHeaderMap (headerTokens H))] old
                    = .ok objs
                ∧ AllOk conn [.Container old,
                    .ContainerCreate new (specHeaderMap (headerTokens H)), .ObjectNamesAll old]
                ∧ ((∃ n o e, objs[n]? = some o
                    ∧ r.2.trace = [.Container old,
                        .ContainerCreate new (specHeaderMap (headerTokens H)),
                        .ObjectNamesAll old]
                        ++ (objs.take n).map (fun o => Call.ObjectMove old o new o)
                        ++ [.ObjectMove old o new o]
                    ∧ AllOk conn ([.Container old,
                        .ContainerCreate new (specHeaderMap (headerTokens H)),
                        .ObjectNamesAll old]
                        ++ (objs.take n).map (fun o => Call.ObjectMove old o new o))
                    ∧ conn.ObjectMove ([.Container old,
                        .ContainerCreate new (specHeaderMap (headerTokens H)),
                        .ObjectNamesAll old]
                        ++ (objs.take n).map (fun o => Call.ObjectMove old o new o))
                        old o new o = some e
                    ∧ r.1 = .ret "" (some ("Failed to move object " ++ o ++ ": " ++ e)))
                  ∨ (r.2.trace = [.Container old,
                        .ContainerCreate new (specHeaderMap (headerTokens H)),
                        .ObjectNamesAll old]
                        ++ objs.map (fun o => Call.ObjectMove old o new o)
                        ++ [.ContainerDelete
                            (if 4 + H.length ≤ args.array.length then new else old)]
                    ∧ AllOk conn ([.Container old,
                        .ContainerCreate new (specHeaderMap (headerTokens H)),
                        .ObjectNamesAll old]
                        ++ objs.map (fun o => Call.ObjectMove old o new o))
                    ∧ ((∃ e, respError conn ([.Container old,
                          .ContainerCreate new (specHeaderMap (headerTokens H)),
                          .ObjectNamesAll old]
                          ++ objs.map (fun o => Call.ObjectMove old o new o))
                          (.ContainerDelete
                            (if 4 + H.length ≤ args.array.length then new else old)) = some e
                        ∧ r.1 = .ret "" (some ("Failed to delete container: "
                            ++ ("Failed to delete container: " ++ e))))
                      ∨ (respError conn ([.Container old,
                          .ContainerCreate new (specHeaderMap (headerTokens H)),
                          .ObjectNamesAll old]
                          ++ objs.map (fun o => Call.ObjectMove old o new o))
                          (.ContainerDelete
                            (if 4 + H.length ≤ args.array.length then new else old)) = none
                        ∧ ∃ out, r.1 = .ret out none))))))))) := by
  have h3 : args.toList[3]? = some old := by rw [h]; simp
  have h4 : args.toList[4]? = some new := by rw [h]; simp
  subst hr
  simp only [RenameContainer, h3, h4]
  have hw0 : (World.init.SetCurrentStage "Renaming container").trace = [] := rfl
  rw [hw0]
  cases hf : conn.Container [] old with
  | error e => exact Or.inl ⟨e, rfl, rfl, rfl⟩
  | ok p =>
    obtain ⟨info, H⟩ := p
    refine Or.inr ⟨info, H, rfl, ?_⟩
    dsimp only
    rw [makeArg_toList args a0 a1 svc old new rest (headerTokens H) h,
      makeArg_deleteArgs args a0 a1 svc old new rest (headerTokens H) h]
    have hlen : (headerTokens H).length = H.length := by simp [headerTokens]
    rw [hlen]
    have hok1 : AllOk conn [.Container old] :=
      AllOk_snoc conn [] _ (AllOk_nil conn) (by simp [respError, hf])
    have hm := MakeContainer_run W conn a0 a1 svc new (headerTokens H)
      ((World.init.SetCurrentStage "Renaming container").call (.Container old))
      (specHeaderMap (headerTokens H)) (parseHeaders_headerTokens H)
    have hw1 : ((World.init.SetCurrentStage "Renaming container").call
        (.Container old)).trace = [.Container old] := rfl
    rw [hw1] at hm
    generalize MakeContainer W (.swift conn) (a0 :: a1 :: svc :: new :: headerTokens H)
      ((World.init.SetCurrentStage "Renaming container").call (.Container old)) = res at hm
    obtain ⟨o2, w2⟩ := res
    obtain ⟨ht2, ⟨e, he2, ho2⟩ | ⟨he2, out2, ho2⟩⟩ := hm
    · simp only at ht2 ho2
      subst ho2
      exact Or.inl ⟨e, he2, ht2, rfl⟩
    · simp only at ht2 ho2
      subst ho2
      refine Or.inr ⟨he2, ?_⟩
      dsimp only
      have hok2 : AllOk conn w2.trace := by
        rw [ht2]
        exact AllOk_snoc conn _ _ hok1 he2
      have hw2 : (w2.SetCurrentStage "Renaming container").trace = w2.trace := rfl
      rw [hw2, ht2]
      have ht2b : [Call.Container old] ++ [.ContainerCreate new (specHeaderMap (headerTokens H))]
          = [.Container old, .ContainerCreate new (specHeaderMap (headerTokens H))] := rfl
      rw [ht2b] at ht2 ⊢
      cases hn : conn.ObjectNamesAll
          [.Container old, .ContainerCreate new (specHeaderMap (headerTokens H))] old with
      | error e =>
        refine Or.inl ⟨e, rfl, ?_, rfl⟩
        show w2.trace ++ [.ObjectNamesAll old] = _
        rw [ht2]
        rfl
      | ok objs =>
        have ht3 : ((w2.SetCurrentStage "Renaming container").call (.ObjectNamesAll old)).trace
            = [.Container old, .ContainerCreate new (specHeaderMap (headerTokens H)),
                .ObjectNamesAll old] := by
          show w2.trace ++ [.ObjectNamesAll old] = _
          rw [ht2]
          rfl
        have hok3 : AllOk conn [.Container old,
            .ContainerCreate new (specHeaderMap (headerTokens H)), .ObjectNamesAll old] := by
          have := AllOk_snoc conn w2.trace (.ObjectNamesAll old) hok2
            (by rw [ht2]; simp [respError, hn])
          rw [ht2] at this
          exact this
        refine Or.inr ⟨objs, rfl, hok3, ?_⟩
        dsimp only
        have hmv := moveObjects_run conn old new objs
          ((w2.SetCurrentStage "Renaming container").call (.ObjectNamesAll old))
          (by rw [ht3]; exact hok3)
        rw [ht3] at hmv
        generalize moveObjects conn old new objs
          ((w2.SetCurrentStage "Renaming container").call (.ObjectNamesAll old)) = res4 at hmv
        obtain ⟨m4, w4⟩ := res4
        rcases hmv with ⟨r1, r2, r3⟩ | ⟨n, o, e, r1, r2, r3, r4, r5⟩
        · simp only at r1 r2 r3
          subst r1
          right
          dsimp only
          have hne : ([] : List String) ≠ ["-f"] := by simp
          rw [DeleteContainer_plain_unfold W _ a0 a1 svc _ [] w4 hne]
          have hd := deleteContainerItself_run W conn svc
            (if 4 + H.length ≤ args.array.length then new else old) w4
          generalize deleteContainerItself W (.swift conn) svc
            (if 4 + H.length ≤ args.array.length then new else old) w4 = res5 at hd
          obtain ⟨o5, w5⟩ := res5
          rw [r2] at hd r3
          obtain ⟨ht5, ⟨e, he5, ho5⟩ | ⟨he5, out5, ho5⟩⟩ := hd
          · simp only at ht5 ho5
            subst ho5
            exact ⟨ht5, r3, Or.inl ⟨e, he5, rfl⟩⟩
          · simp only at ht5 ho5
            subst ho5
            exact ⟨ht5, r3, Or.inr ⟨he5, _, rfl⟩⟩
        · simp only at r2 r5
          subst r5
          exact Or.inl ⟨n, o, e, r1, r2, r3, r4, rfl⟩

/-! ## Every command stops at its first failed call -/

theorem ShowContainers_failStop (W : WriterPkg) (conn : Connection) (args : List String) :
    FailStop conn (messageLead .ShowContainers)
      (ShowContainers W (.swift conn) args World.init) := by
  cases hs : args[2]? with
  | none => exact FailStop_of_allOk conn _ _ (by simpa [ShowContainers, hs] using AllOk_nil conn)
  | some svc =>
    have hrun := ShowContainers_run W conn args World.init svc hs
    exact FailStop_of_callResult conn _ _ _ .ContainerNamesAll hrun.1 (AllOk_nil conn) hrun.2

theorem GetContainerInfo_failStop (W : WriterPkg) (conn : Connection) (args : List String) :
    FailStop conn (messageLead .GetContainerInfo)
      (GetContainerInfo W (.swift conn) args World.init) := by
  cases hs : args[3]? with
  | none =>
    exact FailStop_of_allOk conn _ _ (by simpa [GetContainerInfo, hs] using AllOk_nil conn)
  | some c =>
    have hrun := GetContainerInfo_run W conn args World.init c hs
    exact FailStop_of_callResult conn _ _ _ (.Container c) hrun.1 (AllOk_nil conn) hrun.2

theorem MakeContainer_failStop (W : WriterPkg) (conn : Connection) (args : List String) :
    FailStop conn (messageLead .MakeContainer)
      (MakeContainer W (.swift conn) args World.init) := by
  match args with
  | [] | [_] | [_, _] | [_, _, _] =>
    exact FailStop_of_allOk conn _ _ (by simpa [MakeContainer] using AllOk_nil conn)
  | a0 :: a1 :: svc :: c :: toks =>
    cases hp : parseHeaders toks [] with
    | none =>
      apply FailStop_of_allOk
      rw [MakeContainer_unfold, hp]
      exact AllOk_nil conn
    | some M =>
      have hrun := MakeContainer_run W conn a0 a1 svc c toks World.init M hp
      exact FailStop_of_callResult conn _ _ _ (.ContainerCreate c M) hrun.1 (AllOk_nil conn)
        hrun.2

theorem UpdateContainer_failStop (W : WriterPkg) (conn : Connection) (args : List String) :
    FailStop conn (messageLead .UpdateContainer)
      (UpdateContainer W (.swift conn) args World.init) := by
  match args with
  | [] | [_] | [_, _] | [_, _, _] =>
    exact FailStop_of_allOk conn _ _ (by simpa [UpdateContainer] using AllOk_nil conn)
  | a0 :: a1 :: svc :: c :: toks =>
    have hinit : World.init.trace = [] := rfl
    rcases UpdateContainer_run W conn a0 a1 svc c toks World.init with
      ⟨e, h1, h2, h3⟩ | ⟨h1, ⟨_, h2, _⟩ | ⟨M, _, h2, ⟨e, h3, h4⟩ | ⟨h3, _⟩⟩⟩
    · apply FailStop_of_last conn _ _ _ (.Container c) h2 (AllOk_nil conn)
      intro e2 he2
      rw [h1] at he2
      cases he2
      rw [h3]
      simp [messageLead, String.append_assoc]
    · apply FailStop_of_allOk
      rw [h2]
      exact AllOk_snoc conn _ _ (AllOk_nil conn) h1
    · apply FailStop_of_last conn _ _ _ (.ContainerCreate c M) h2
        (AllOk_snoc conn _ _ (AllOk_nil conn) h1)
      intro e2 he2
      rw [h3] at he2
      cases he2
      rw [h4, ← String.append_assoc]
      rfl
    · apply FailStop_of_allOk
      rw [h2]
      exact AllOk_snoc conn _ _ (AllOk_snoc conn _ _ (AllOk_nil conn) h1) h3

theorem RenameContainer_failStop (W : WriterPkg) (conn : Connection) (args : Slice) :
    FailStop conn (messageLead .RenameContainer)
      (RenameContainer W (.swift conn) args World.init) := by
  rcases hl : args.toList with
    _ | ⟨a0, _ | ⟨a1, _ | ⟨svc, _ | ⟨old, _ | ⟨new, rest⟩⟩⟩⟩⟩
  case cons.cons.cons.cons.cons =>
    rcases RenameContainer_run W conn args a0 a1 svc old new rest hl _ rfl with
      ⟨e, h1, h2, h3⟩ | ⟨info, H, h1, ⟨e, h2, h3, h4⟩ | ⟨h2, ⟨e, h3, h4, h5⟩ |
        ⟨objs, h3, hok3, ⟨n, o, e, _, r2, r3, r4, r5⟩ | ⟨r2, r3, ⟨e, r4, r5⟩ | ⟨r4, _⟩⟩⟩⟩⟩
    · apply FailStop_of_last conn _ _ [] (.Container old) h2 (AllOk_nil conn)
      intro e2 he2
      simp only [respError, h1] at he2
      cases he2
      exact h3
    · apply FailStop_of_last conn _ _ [.Container old] (.ContainerCreate new _) h3
        (AllOk_snoc conn [] _ (AllOk_nil conn) (by simp [respError, h1]))
      intro e2 he2
      simp only [respError, h2] at he2
      cases he2
      rw [h4, ← String.append_assoc]
      rfl
    · apply FailStop_of_last conn _ _ [.Container old, .ContainerCreate new _]
        (.ObjectNamesAll old) h4
        (AllOk_snoc conn [.Container old] _
          (AllOk_snoc conn [] _ (AllOk_nil conn) (by simp [respError, h1]))
          (by simpa [respError] using h2))
      intro e2 he2
      simp only [respError, h3] at he2
      cases he2
      exact h5
    · apply FailStop_of_last conn _ _ _ (.ObjectMove old o new o) r2 r3
      intro e2 he2
      simp only [respError, r4] at he2
      cases he2
      exact r5
    · apply FailStop_of_last conn _ _ _ (.ContainerDelete _) r2 r3
      intro e2 he2
      rw [r4] at he2
      cases he2
      rw [r5, ← String.append_assoc]
      rfl
    · apply FailStop_of_allOk
      rw [r2]
      exact AllOk_snoc conn _ _ r3 r4
  all_goals
    exact FailStop_of_allOk conn _ _ (by simpa [RenameContainer, hl] using AllOk_nil conn)

/-! ## Occurrences of a name in a message -/

theorem startsWith_append (t b : List Char) : startsWith (t ++ b) t = true := by
  induction t with
  | nil => cases b <;> simp [startsWith]
  | cons c t ih => simp [startsWith, ih]

theorem occursIn_append (t a b : List Char) : occursIn t (a ++ (t ++ b)) = true := by
  induction a with
  | nil =>
    cases h : t ++ b with
    | nil =>
      have ht : t = [] := (List.append_eq_nil.mp h).1
      simp [occursIn, ht, startsWith]
    | cons c s =>
      have := startsWith_append t b
      rw [h] at this
      simp [occursIn, this]
  | cons c a ih => simp [occursIn, ih]

theorem occursIn_of_Occurs (t s : String) (h : Occurs t s) : occursIn t.data s.data = true := by
  obtain ⟨a, b, rfl⟩ := h
  simp only [String.data_append, List.append_assoc]
  exact occursIn_append t.data a.data b.data

/-- C7: in `DeleteContainer`, `UpdateContainer` and `RenameContainer`, for every
remote store, a remote call of the run that fails is the last call of the
trace (when it is the call at index `k` the trace has `k + 1` entries), and the
command returns the empty string with an error. -/
theorem first_failure_is_terminal (W : WriterPkg) (conn : Connection) (args : List String)
    (sargs : Slice) (k : Nat) (c : Call) (e : String) :
    ((DeleteContainer W (.swift conn) args World.init).2.trace[k]? = some c →
        respError conn ((DeleteContainer W (.swift conn) args World.init).2.trace.take k) c
          = some e →
        (DeleteContainer W (.swift conn) args World.init).2.trace.length = k + 1
          ∧ ∃ msg, (DeleteContainer W (.swift conn) args World.init).1 = .ret "" (some msg))
      ∧ ((UpdateContainer W (.swift conn) args World.init).2.trace[k]? = some c →
        respError conn ((UpdateContainer W (.swift conn) args World.init).2.trace.take k) c
          = some e →
        (UpdateContainer W (.swift conn) args World.init).2.trace.length = k + 1
          ∧ ∃ msg, (UpdateContainer W (.swift conn) args World.init).1 = .ret "" (some msg))
      ∧ ((RenameContainer W (.swift conn) sargs World.init).2.trace[k]? = some c →
        respError conn ((RenameContainer W (.swift conn) sargs World.init).2.trace.take k) c
          = some e →
        (RenameContainer W (.swift conn) sargs World.init).2.trace.length = k + 1
          ∧ ∃ msg, (RenameContainer W (.swift conn) sargs World.init).1 = .ret "" (some msg)) := by
  refine ⟨?_, ?_, ?_⟩
  · intro hk he
    have := DeleteContainer_failStop W conn args World.init (AllOk_nil conn) k c e hk he
    exact ⟨this.1, _, this.2⟩
  · intro hk he
    have := UpdateContainer_failStop W conn args k c e hk he
    exact ⟨this.1, _, this.2⟩
  · intro hk he
    have := RenameContainer_failStop W conn sargs k c e hk he
    exact ⟨this.1, _, this.2⟩

/-- Witness of `first_failure_is_terminal`: a forced delete of a container that
enumerates `a` and `b`, where deleting `b` fails with `boom`: the calls are
`ObjectNamesAll(c)`, `ObjectDelete(c, a)`, `ObjectDelete(c, b)`, no
`ContainerDelete` is issued, and the error is "Failed to delete object b: boom". -/
theorem first_failure_is_terminal_witness :
    DeleteContainer W0 (.swift abFailStore) ["p", "d", "svc", "c", "-f"] World.init
        = (.ret "" (some "Failed to delete object b: boom"),
            { trace := [.ObjectNamesAll "c", .ObjectDelete "c" "a", .ObjectDelete "c" "b"],
              stages := ["Deleting objects in container"] })
      ∧ ((DeleteContainer W0 (.swift abFailStore) ["p", "d", "svc", "c", "-f"]
            World.init).2.trace.length = 2 + 1
        ∧ ∃ msg, (DeleteContainer W0 (.swift abFailStore) ["p", "d", "svc", "c", "-f"]
            World.init).1 = .ret "" (some msg)) :=
  ⟨by decide,
    (first_failure_is_terminal W0 abFailStore ["p", "d", "svc", "c", "-f"] (Slice.ofList [])
      2 (.ObjectDelete "c" "b") "boom").1 (by decide) (by decide)⟩

/-- C8, as the claim states it, fails: with the malformed token `badheader` and
a store whose calls succeed, `UpdateContainer` has issued the container fetch
before the token is parsed, so its trace is not empty. -/
theorem UpdateContainer_malformed_fetches_first :
    Malformed "badheader"
      ∧ UpdateContainer W0 (.swift fooStore) ["p", "c", "svc", "bucket", "badheader"] World.init
        = (.ret "" (some ("Failed to make container: "
              ++ "Unable to parse headers (must use format header-name:header-value)")),
            { trace := [.Container "bucket"],
              stages := ["Updating container", "Fetching container info",
                "Creating container"] })
      ∧ (UpdateContainer W0 (.swift fooStore) ["p", "c", "svc", "bucket", "badheader"]
          World.init).2.trace ≠ [] := by
  decide

/-- C8, amended: when some header token of `args[4:]` is neither a shorthand key
nor contains a colon, `UpdateContainer` issues exactly one remote call, the
fetch `Container(args[3])`, and no `ContainerCreate`; when the fetch succeeds it
returns the empty string and the error "Failed to make container: Unable to
parse headers (must use format header-name:header-value)", and when the fetch
fails with error `e` it returns the empty string and the error of the fetch. -/
theorem UpdateContainer_malformed (W : WriterPkg) (conn : Connection) (args : List String)
    (hlen : 5 ≤ args.length) (hbad : ∃ t ∈ args.drop 4, Malformed t) :
    ∃ c, args[3]? = some c
      ∧ (UpdateContainer W (.swift conn) args World.init).2.trace = [.Container c]
      ∧ (∀ n M, Call.ContainerCreate n M ∉ (UpdateContainer W (.swift conn) args World.init).2.trace)
      ∧ (respError conn [] (.Container c) = none →
          (UpdateContainer W (.swift conn) args World.init).1
            = .ret "" (some ("Failed to make container: "
                ++ "Unable to parse headers (must use format header-name:header-value)")))
      ∧ (∀ e, respError conn [] (.Container c) = some e →
          (UpdateContainer W (.swift conn) args World.init).1
            = .ret "" (some ("Failed to get container " ++ c ++ ": "
                ++ ("Failed to get container info for container " ++ c ++ ": " ++ e)))) := by
  obtain ⟨a0, a1, svc, c, t, toks, rfl⟩ := args_of_length5 args hlen
  have hdrop : (a0 :: a1 :: svc :: c :: t :: toks).drop 4 = t :: toks := rfl
  rw [hdrop] at hbad
  have hp := parseHeaders_malformed (t :: toks) [] hbad
  have hinit : World.init.trace = [] := rfl
  refine ⟨c, by simp, ?_⟩
  rcases UpdateContainer_run W conn a0 a1 svc c (t :: toks) World.init with
    ⟨e, h1, h2, h3⟩ | ⟨h1, ⟨_, h2, h3⟩ | ⟨M, hM, _⟩⟩
  · rw [hinit] at h1 h2
    refine ⟨h2, ?_, ?_, ?_⟩
    · intro n M
      rw [h2]
      simp
    · intro h
      rw [h] at h1
      cases h1
    · intro e2 he2
      rw [h1] at he2
      cases he2
      exact h3
  · rw [hinit] at h1 h2
    refine ⟨h2, ?_, ?_, ?_⟩
    · intro n M
      rw [h2]
      simp
    · intro _
      exact h3
    · intro e2 he2
      rw [h1] at he2
      cases he2
  · rw [hp] at hM
    cases hM

/-- Witness of `UpdateContainer_malformed`: the token `badheader` after a valid
token. -/
theorem UpdateContainer_malformed_witness :
    ∃ c, ["p", "c", "svc", "bucket", "k:v", "badheader"][3]? = some c
      ∧ (UpdateContainer W0 (.swift fooStore) ["p", "c", "svc", "bucket", "k:v", "badheader"]
          World.init).2.trace = [.Container c]
      ∧ (∀ n M, Call.ContainerCreate n M ∉ (UpdateContainer W0 (.swift fooStore)
          ["p", "c", "svc", "bucket", "k:v", "badheader"] World.init).2.trace)
      ∧ (respError fooStore [] (.Container c) = none →
          (UpdateContainer W0 (.swift fooStore) ["p", "c", "svc", "bucket", "k:v", "badheader"]
            World.init).1
            = .ret "" (some ("Failed to make container: "
                ++ "Unable to parse headers (must use format header-name:header-value)")))
      ∧ (∀ e, respError fooStore [] (.Container c) = some e →
          (UpdateContainer W0 (.swift fooStore) ["p", "c", "svc", "bucket", "k:v", "badheader"]
            World.init).1
            = .ret "" (some ("Failed to get container " ++ c ++ ": "
                ++ ("Failed to get container info for container " ++ c ++ ": " ++ e)))) :=
  UpdateContainer_malformed W0 fooStore ["p", "c", "svc", "bucket", "k:v", "badheader"]
    (by decide) ⟨"badheader", by decide, by decide⟩

/-- C9, as the claim states it, fails: when `ContainerCreate` fails with `boom`
in `MakeContainer` the message is "Failed to create container: boom", and when
`ContainerDelete` fails with `boom` in `DeleteContainer` the message is "Failed
to delete container: boom"; neither contains the container name `mybucket`. -/
theorem failure_message_omits_container_name :
    (MakeContainer W0 (.swift boomStore) ["p", "c", "svcA", "mybucket"] World.init
        = (.ret "" (some "Failed to create container: boom"),
            { trace := [.ContainerCreate "mybucket" []], stages := ["Creating container"] })
      ∧ respError boomStore [] (.ContainerCreate "mybucket" []) = some "boom"
      ∧ ¬ Occurs "mybucket" "Failed to create container: boom")
    ∧ (DeleteContainer W0 (.swift boomStore) ["p", "c", "svcA", "mybucket"] World.init
        = (.ret "" (some "Failed to delete container: boom"),
            { trace := [.ContainerDelete "mybucket"], stages := ["Deleting container"] })
      ∧ respError boomStore [] (.ContainerDelete "mybucket") = some "boom"
      ∧ ¬ Occurs "mybucket" "Failed to delete container: boom") := by
  refine ⟨⟨by decide, by decide, ?_⟩, ⟨by decide, by decide, ?_⟩⟩
  · intro h
    have := occursIn_of_Occurs _ _ h
    revert this
    decide
  · intro h
    have := occursIn_of_Occurs _ _ h
    revert this
    decide

/-- C9, amended: in each of the six commands, when a remote call of the run
fails with underlying error `e`, the command returns the empty string and the
message `messageLead cmd call ++ e`, a text fixed by the command and the failed
call followed by `e`. That text contains the container name for a failed
`Container` call and the object name for a failed `ObjectDelete` or
`ObjectMove` call; for a failed `ContainerNamesAll`, `ContainerCreate`,
`ContainerDelete` or `ObjectNamesAll` call it is a constant that names the
action only. -/
theorem failure_message_shape (W : WriterPkg) (conn : Connection) (args : List String)
    (sargs : Slice) (k : Nat) (c : Call) (e : String) :
    ((ShowContainers W (.swift conn) args World.init).2.trace[k]? = some c →
        respError conn ((ShowContainers W (.swift conn) args World.init).2.trace.take k) c
          = some e →
        (ShowContainers W (.swift conn) args World.init).1
          = .ret "" (some (messageLead .ShowContainers c ++ e)))
      ∧ ((GetContainerInfo W (.swift conn) args World.init).2.trace[k]? = some c →
        respError conn ((GetContainerInfo W (.swift conn) args World.init).2.trace.take k) c
          = some e →
        (GetContainerInfo W (.swift conn) args World.init).1
          = .ret "" (some (messageLead .GetContainerInfo c ++ e)))
      ∧ ((MakeContainer W (.swift conn) args World.init).2.trace[k]? = some c →
        respError conn ((MakeContainer W (.swift conn) args World.init).2.trace.take k) c
          = some e →
        (MakeContainer W (.swift conn) args World.init).1
          = .ret "" (some (messageLead .MakeContainer c ++ e)))
      ∧ ((DeleteContainer W (.swift conn) args World.init).2.trace[k]? = some c →
        respError conn ((DeleteContainer W (.swift conn) args World.init).2.trace.take k) c
          = some e →
        (DeleteContainer W (.swift conn) args World.init).1
          = .ret "" (some (messageLead .DeleteContainer c ++ e)))
      ∧ ((UpdateContainer W (.swift conn) args World.init).2.trace[k]? = some c →
        respError conn ((UpdateContainer W (.swift conn) args World.init).2.trace.take k) c
          = some e →
        (UpdateContainer W (.swift conn) args World.init).1
          = .ret "" (some (messageLead .UpdateContainer c ++ e)))
      ∧ ((RenameContainer W (.swift conn) sargs World.init).2.trace[k]? = some c →
        respError conn ((RenameContainer W (.swift conn) sargs World.init).2.trace.take k) c
          = some e →
        (RenameContainer W (.swift conn) sargs World.init).1
          = .ret "" (some (messageLead .RenameContainer c ++ e)))
      ∧ (∀ n, Occurs n (messageLead .GetContainerInfo (.Container n))
          ∧ Occurs n (messageLead .UpdateContainer (.Container n))
          ∧ Occurs n (messageLead .RenameContainer (.Container n)))
      ∧ (∀ n o, Occurs o (messageLead .DeleteContainer (.ObjectDelete n o)))
      ∧ (∀ n o n2 o2, Occurs o (messageLead .RenameContainer (.ObjectMove n o n2 o2)))
      ∧ messageLead .ShowContainers .ContainerNamesAll = "Failed to get containers: "
      ∧ (∀ n M, messageLead .MakeContainer (.ContainerCreate n M)
            = "Failed to create container: "
          ∧ messageLead .UpdateContainer (.ContainerCreate n M)
            = "Failed to make container: Failed to create container: "
          ∧ messageLead .RenameContainer (.ContainerCreate n M)
            = "Failed to make container: Failed to create container: ")
      ∧ (∀ n, messageLead .DeleteContainer (.ContainerDelete n) = "Failed to delete container: "
          ∧ messageLead .RenameContainer (.ContainerDelete n)
            = "Failed to delete container: Failed to delete container: "
          ∧ messageLead .DeleteContainer (.ObjectNamesAll n)
            = "Failed to get objects to delete: "
          ∧ messageLead .RenameContainer (.ObjectNamesAll n)
            = "Failed to get objects to move: ") := by
  refine ⟨?_, ?_, ?_, ?_, ?_, ?_, ?_, ?_, ?_, rfl, fun _ _ => ⟨rfl, rfl, rfl⟩,
    fun _ => ⟨rfl, rfl, rfl, rfl⟩⟩
  · intro hk he
    exact (ShowContainers_failStop W conn args k c e hk he).2
  · intro hk he
    exact (GetContainerInfo_failStop W conn args k c e hk he).2
  · intro hk he
    exact (MakeContainer_failStop W conn args k c e hk he).2
  · intro hk he
    exact (DeleteContainer_failStop W conn args World.init (AllOk_nil conn) k c e hk he).2
  · intro hk he
    exact (UpdateContainer_failStop W conn args k c e hk he).2
  · intro hk he
    exact (RenameContainer_failStop W conn sargs k c e hk he).2
  · intro n
    refine ⟨⟨"Failed to get container info for container ", ": ", rfl⟩,
      ⟨"Failed to get container ", ": " ++ ("Failed to get container info for container "
        ++ n ++ ": "), ?_⟩, ⟨"Failed to get container ", ": ", rfl⟩⟩
    simp [messageLead, String.append_assoc]
  · intro n o
    exact ⟨"Failed to delete object ", ": ", rfl⟩
  · intro n o n2 o2
    exact ⟨"Failed to move object ", ": ", rfl⟩

/-- Witness of `failure_message_shape`: a failing `ContainerCreate` in
`MakeContainer` and a failing `ContainerDelete` in `DeleteContainer`. -/
theorem failure_message_shape_witness :
    (MakeContainer W0 (.swift boomStore) ["p", "c", "svcA", "mybucket"] World.init).1
        = .ret "" (some (messageLead .MakeContainer (.ContainerCreate "mybucket" []) ++ "boom"))
      ∧ (DeleteContainer W0 (.swift boomStore) ["p", "c", "svcA", "mybucket"] World.init).1
        = .ret "" (some (messageLead .DeleteContainer (.ContainerDelete "mybucket") ++ "boom")) :=
  ⟨(failure_message_shape W0 boomStore ["p", "c", "svcA", "mybucket"] (Slice.ofList []) 0
      (.ContainerCreate "mybucket" []) "boom").2.2.1 (by decide) (by decide),
    (failure_message_shape W0 boomStore ["p", "c", "svcA", "mybucket"] (Slice.ofList []) 0
      (.ContainerDelete "mybucket") "boom").2.2.2.1 (by decide) (by decide)⟩

/-- C1, evaluated on the code: with arguments `a0 a1 svc old new` in a slice
whose capacity is its length 5, a fetched header map with the single entry
`X-Container-Meta-Foo: Bar`, the single object `x.txt` and a store whose calls
all succeed, `makeArg` is built in place in the backing array of `args`, which
leaves `new` at `args[3]`; the last remote call of `RenameContainer` is
`ContainerDelete(new)` and no `ContainerDelete(old)` is issued. -/
theorem RenameContainer_deletes_new_container :
    (makeArg (Slice.ofList ["a0", "a1", "svc", "old", "new"]) "new"
        (headerTokens [("X-Container-Meta-Foo", "Bar")])).2
        = ["a0", "a1", "svc", "new", "X-Container-Meta-Foo:Bar"]
      ∧ RenameContainer W0 (.swift fooStore) (Slice.ofList ["a0", "a1", "svc", "old", "new"])
          World.init
        = (.ret "\r<clear><green>OK\n\nRenamed container old to new\n" none,
            { trace := [.Container "old",
                .ContainerCreate "new" [("X-Container-Meta-Foo", "Bar")],
                .ObjectNamesAll "old", .ObjectMove "old" "x.txt" "new" "x.txt",
                .ContainerDelete "new"],
              stages := ["Renaming container", "Creating container", "Renaming container",
                "Deleting container"] })
      ∧ Call.ContainerDelete "old" ∉ (RenameContainer W0 (.swift fooStore)
          (Slice.ofList ["a0", "a1", "svc", "old", "new"]) World.init).2.trace := by
  decide

/-- C10: when the fetch of the old container returns the header map `H` and no
key of `H` contains a colon, every token `key + ":" + value` built from `H` is
accepted by the header loop of `MakeContainer` and none is a shorthand key, the
loop rebuilds exactly `H`, the argument list handed to `MakeContainer` is
`args[0], args[1], args[2], new` followed by the tokens (the service name is
`args[2]`), and the only `ContainerCreate` of the run is `ContainerCreate(new, H)`,
the second call of the trace. -/
theorem RenameContainer_carries_headers (W : WriterPkg) (conn : Connection) (args : Slice)
    (a0 a1 svc old new : String) (rest : List String) (info : ContainerInfo) (H : StrMap)
    (hargs : args.toList = a0 :: a1 :: svc :: old :: new :: rest)
    (hfetch : conn.Container [] old = .ok (info, H))
    (hnodup : (H.map Prod.fst).Nodup) (hkeys : ∀ p ∈ H, ':' ∉ p.1.data) :
    (∀ t ∈ headerTokens H, mapLookup shortHeaders t = none ∧ ¬ Malformed t)
      ∧ parseHeaders (headerTokens H) [] = some H
      ∧ (makeArg args new (headerTokens H)).1.toList
          = a0 :: a1 :: svc :: new :: headerTokens H
      ∧ (RenameContainer W (.swift conn) args World.init).2.trace[1]?
          = some (.ContainerCreate new H)
      ∧ (∀ n M, Call.ContainerCreate n M
            ∈ (RenameContainer W (.swift conn) args World.init).2.trace → n = new ∧ M = H) := by
  have hH : specHeaderMap (headerTokens H) = H := specHeaderMap_headerTokens H hnodup hkeys
  refine ⟨fun t ht => ⟨headerTokens_not_shorthand H t ht, headerTokens_wellformed H t ht⟩,
    by rw [parseHeaders_headerTokens, hH],
    makeArg_toList args a0 a1 svc old new rest (headerTokens H) hargs, ?_⟩
  rcases RenameContainer_run W conn args a0 a1 svc old new rest hargs _ rfl with
    ⟨e, h1, _, _⟩ | ⟨info2, H2, h1, hcases⟩
  · rw [hfetch] at h1
    cases h1
  · rw [hfetch] at h1
    cases h1
    rw [hH] at hcases
    rcases hcases with ⟨e, _, h3, _⟩ | ⟨_, ⟨e, _, h4, _⟩ |
        ⟨objs, _, _, ⟨n, o, e, _, r2, _, _, _⟩ | ⟨r2, _, _⟩⟩⟩
    · rw [h3]
      simp
    · rw [h4]
      simp
    · rw [r2]
      refine ⟨by simp, ?_⟩
      intro n2 M hmem
      simp at hmem
      rcases hmem with h | h
      · exact h
      · have := List.mem_of_mem_take h
        simp at this
    · rw [r2]
      refine ⟨by simp, ?_⟩
      intro n2 M hmem
      simp at hmem
      exact hmem

/-- Witness of `RenameContainer_carries_headers`: a header value with colons
and a header key that is a shorthand key. -/
theorem RenameContainer_carries_headers_witness :
    (RenameContainer W0 (.swift colonStore) (Slice.ofList ["a0", "a1", "svc", "old", "new"])
        World.init).2.trace[1]?
      = some (.ContainerCreate "new" [("X-Container-Meta-Foo", "Bar:baz:"), ("-gr", "")]) :=
  (RenameContainer_carries_headers W0 colonStore (Slice.ofList ["a0", "a1", "svc", "old", "new"])
    "a0" "a1" "svc" "old" "new" [] { Name := "old", Count := 2, Bytes := 2 }
    [("X-Container-Meta-Foo", "Bar:baz:"), ("-gr", "")] rfl rfl (by decide) (by decide)).2.2.2.1

/-- C6: for arguments of length at least 5 (old container `args[3]`, new
container `args[4]`) and every behaviour of the remote store, in the trace of
`RenameContainer` every `ObjectMove` call is `ObjectMove(old, o, new, o)` and
comes after a `ContainerCreate` call for the new container, and a
`ContainerDelete` call comes after an `ObjectNamesAll(old)` call that returned
a list of objects for each of which an `ObjectMove(old, o, new, o)` was issued
in between and succeeded. -/
theorem RenameContainer_call_order (W : WriterPkg) (conn : Connection) (args : Slice)
    (a0 a1 svc old new : String) (rest : List String)
    (hargs : args.toList = a0 :: a1 :: svc :: old :: new :: rest) :
    (∀ i a b c d,
        (RenameContainer W (.swift conn) args World.init).2.trace[i]?
          = some (Call.ObjectMove a b c d) →
        a = old ∧ c = new ∧ b = d
          ∧ ∃ (j : Nat) (M : StrMap), j < i ∧ (RenameContainer W (.swift conn) args World.init).2.trace[j]?
              = some (Call.ContainerCreate new M))
      ∧ (∀ i x,
        (RenameContainer W (.swift conn) args World.init).2.trace[i]?
          = some (Call.ContainerDelete x) →
        ∃ (j : Nat) (objs : List String), j < i
          ∧ (RenameContainer W (.swift conn) args World.init).2.trace[j]?
              = some (Call.ObjectNamesAll old)
          ∧ conn.ObjectNamesAll
              ((RenameContainer W (.swift conn) args World.init).2.trace.take j) old = .ok objs
          ∧ ∀ o ∈ objs, ∃ m : Nat, j < m ∧ m < i
              ∧ (RenameContainer W (.swift conn) args World.init).2.trace[m]?
                  = some (Call.ObjectMove old o new o)
              ∧ conn.ObjectMove
                  ((RenameContainer W (.swift conn) args World.init).2.trace.take m)
                  old o new o = none) := by
  rcases RenameContainer_run W conn args a0 a1 svc old new rest hargs _ rfl with
    ⟨e, _, h2, _⟩ | ⟨info, H, _, ⟨e, _, h3, _⟩ | ⟨_, ⟨e, _, h4, _⟩ |
      ⟨objs, h3, _, ⟨n, o, e, _, r2, _, _, _⟩ | ⟨r2, r3, _⟩⟩⟩⟩
  · rw [h2]
    constructor
    · intro i a b c d hi
      have := List.getElem?_mem hi
      simp at this
    · intro i x hi
      have := List.getElem?_mem hi
      simp at this
  · rw [h3]
    constructor
    · intro i a b c d hi
      have := List.getElem?_mem hi
      simp at this
    · intro i x hi
      have := List.getElem?_mem hi
      simp at this
  · rw [h4]
    constructor
    · intro i a b c d hi
      have := List.getElem?_mem hi
      simp at this
    · intro i x hi
      have := List.getElem?_mem hi
      simp at this
  · rw [r2]
    constructor
    · intro i a b c d hi
      have hmem := List.getElem?_mem hi
      simp only [List.mem_append, List.mem_cons, List.mem_map, List.mem_singleton,
        List.not_mem_nil, or_false, reduceCtorEq, false_or, Call.ObjectMove.injEq] at hmem
      have hform : a = old ∧ c = new ∧ b = d := by
        rcases hmem with ⟨o2, _, h1, h2, h3, h4⟩ | ⟨h1, h2, h3, h4⟩
        · exact ⟨h1.symm, h3.symm, by rw [← h2, ← h4]⟩
        · exact ⟨h1, h3, by rw [h2, h4]⟩
      refine ⟨hform.1, hform.2.1, hform.2.2, ?_⟩
      match i, hi with
      | 0, hi => simp at hi
      | 1, hi => simp at hi
      | i + 2, _ => exact ⟨1, specHeaderMap (headerTokens H), by omega, by simp⟩
    · intro i x hi
      have := List.getElem?_mem hi
      simp at this
      have := List.mem_of_mem_take this
      simp at this
  · rw [r2]
    constructor
    · intro i a b c d hi
      have hmem := List.getElem?_mem hi
      simp only [List.mem_append, List.mem_cons, List.mem_map, List.mem_singleton,
        List.not_mem_nil, or_false, reduceCtorEq, false_or, Call.ObjectMove.injEq] at hmem
      have hform : a = old ∧ c = new ∧ b = d := by
        obtain ⟨o2, _, h1, h2, h3, h4⟩ := hmem
        exact ⟨h1.symm, h3.symm, by rw [← h2, ← h4]⟩
      refine ⟨hform.1, hform.2.1, hform.2.2, ?_⟩
      match i, hi with
      | 0, hi => simp at hi
      | 1, hi => simp at hi
      | i + 2, _ => exact ⟨1, specHeaderMap (headerTokens H), by omega, by simp⟩
    · intro i x hi
      have hi_eq : i = objs.length + 3 := by
        rcases Nat.lt_trichotomy i (objs.length + 3) with hlt | heq | hgt
        · rw [List.getElem?_append_left (by simpa using hlt)] at hi
          have := List.getElem?_mem hi
          simp at this
        · exact heq
        · rw [List.getElem?_eq_none (by simp; omega)] at hi
          cases hi
      subst hi_eq
      refine ⟨2, objs, by omega, by simp, by simpa using h3, ?_⟩
      intro o ho
      obtain ⟨n, hn⟩ := List.mem_iff_getElem?.mp ho
      have hnlt : n < objs.length := by
        rcases List.getElem?_eq_some.mp hn with ⟨h, _⟩
        exact h
      have hlen : n + 3 < ([Call.Container old,
          .ContainerCreate new (specHeaderMap (headerTokens H)), .ObjectNamesAll old]
          ++ objs.map (fun o => Call.ObjectMove old o new o)).length := by
        simp
        omega
      have helem : ([Call.Container old,
          .ContainerCreate new (specHeaderMap (headerTokens H)), .ObjectNamesAll old]
          ++ objs.map (fun o => Call.ObjectMove old o new o))[n + 3]?
          = some (.ObjectMove old o new o) := by
        simp [hn]
      refine ⟨n + 3, by omega, by omega, ?_, ?_⟩
      · rw [List.getElem?_append_left hlen]
        exact helem
      · rw [List.take_append_of_le_length (Nat.le_of_lt hlen)]
        have := r3 (n + 3) _ helem
        simpa [respError] using this

/-- Witness of `RenameContainer_call_order`: on a store whose calls succeed, with
one header and the one object `x.txt`, the `ContainerDelete` at index 4 comes
after the enumeration at index 2 and the successful move of `x.txt`. -/
theorem RenameContainer_call_order_witness :
    ∃ (j : Nat) (objs : List String), j < 4
      ∧ (RenameContainer W0 (.swift fooStore) (Slice.ofList ["a0", "a1", "svc", "old", "new"])
          World.init).2.trace[j]? = some (Call.ObjectNamesAll "old")
      ∧ fooStore.ObjectNamesAll
          ((RenameContainer W0 (.swift fooStore) (Slice.ofList ["a0", "a1", "svc", "old", "new"])
            World.init).2.trace.take j) "old" = .ok objs
      ∧ ∀ o ∈ objs, ∃ m : Nat, j < m ∧ m < 4
          ∧ (RenameContainer W0 (.swift fooStore)
              (Slice.ofList ["a0", "a1", "svc", "old", "new"]) World.init).2.trace[m]?
              = some (Call.ObjectMove "old" o "new" o)
          ∧ fooStore.ObjectMove
              ((RenameContainer W0 (.swift fooStore)
                (Slice.ofList ["a0", "a1", "svc", "old", "new"]) World.init).2.trace.take m)
              "old" o "new" o = none :=
  (RenameContainer_call_order W0 fooStore (Slice.ofList ["a0", "a1", "svc", "old", "new"])
    "a0" "a1" "svc" "old" "new" [] rfl).2 4 "new" (by decide)

end container
